import Mathlib

/-!
Verification of the `python_sri` HTML parser/serializer
(`src/python_sri/parser.py`) against its natural-language specification.

The Python module is shallowly embedded: Python strings are Lean `String`s
(sequences of scalar values), Python exceptions are an explicit `PyErr`
sum carried in `Except`, object identity of `Element` instances is an `id`
field assigned from a counter, and the mutable parser object is an explicit
`PState` record threaded through the handler functions.  The handler layer
(`Parser.__start_tag`, `handle_endtag`, `handle_data`, `handle_charref`,
`handle_entityref`, `handle_decl`, `Parser.feed`, `Parser.stringify`,
`Element` and its mutation surface) is translated from the source.  The
character-by-character scanner that `Parser.feed` inherits from the Python
standard library (`html.parser.HTMLParser.goahead` and its `parse_*`
helpers) is not part of this repository; it is modelled from the spec's
description of the tokenizer, faithfully for the well-formed constructs
exercised here.
-/

namespace Sri

/-! ## Python string primitives (ASCII fragment)

Models of the Python `str` operations the source uses.  They are faithful
on ASCII input, which covers every string manipulated by the claims. -/

/-- Characters Python's `str.isspace` / bare `str.split()` / `str.strip()`
treat as whitespace (ASCII fragment). -/
def pyIsWs (c : Char) : Bool :=
  c = ' ' || c = '\t' || c = '\n' || c = '\r' || c = '\x0b' || c = '\x0c'

/-- Strip characters satisfying `p` from both ends of a character list. -/
def stripList (p : Char → Bool) (cs : List Char) : List Char :=
  ((cs.dropWhile p).reverse.dropWhile p).reverse

/-- Python `s.strip()` (ASCII whitespace). -/
def pyStrip (s : String) : String := ⟨stripList pyIsWs s.data⟩

/-- Python `s.strip(chars)`: strip any of `set` from both ends. -/
def pyStripSet (set : List Char) (s : String) : String :=
  ⟨stripList (fun c => set.contains c) s.data⟩

/-- Worker for `pySplit`: accumulates the current word reversed. -/
def pySplitGo : List Char → List Char → List String
  | [], acc => if acc.isEmpty then [] else [⟨acc.reverse⟩]
  | c :: rest, acc =>
    if pyIsWs c then
      if acc.isEmpty then pySplitGo rest [] else ⟨acc.reverse⟩ :: pySplitGo rest []
    else pySplitGo rest (c :: acc)

/-- Python `s.split()` with no argument: split on whitespace runs,
dropping empty pieces. -/
def pySplit (s : String) : List String := pySplitGo s.data []

/-- Python `s.lower()` (also models `s.casefold()`, identical on ASCII). -/
def pyLower (s : String) : String := ⟨s.data.map Char.toLower⟩

/-- Python `s.upper()` (ASCII). -/
def pyUpper (s : String) : String := ⟨s.data.map Char.toUpper⟩

/-- Does list `l` start with list `p`? -/
def listStartsWith : List Char → List Char → Bool
  | _, [] => true
  | [], _ :: _ => false
  | a :: as, b :: bs => a = b && listStartsWith as bs

/-- Python `s.startswith(p)`. -/
def pyStartsWith (s p : String) : Bool := listStartsWith s.data p.data

/-- Python `s.endswith(p)`. -/
def pyEndsWith (s p : String) : Bool := listStartsWith s.data.reverse p.data.reverse

/-- Worker for `pyInStr`. -/
def strInGo (needle : List Char) : List Char → Bool
  | [] => needle.isEmpty
  | c :: rest => listStartsWith (c :: rest) needle || strInGo needle rest

/-- Python `needle in hay` (substring containment). -/
def pyInStr (needle hay : String) : Bool := strInGo needle.data hay.data

/-- Worker for `pyFindChar`. -/
def pyFindCharGo (c : Char) : List Char → Nat → Option Nat
  | [], _ => none
  | d :: rest, i => if d = c then some i else pyFindCharGo c rest (i + 1)

/-- Python `s.find(c)` for a single-character needle: `none` models `-1`. -/
def pyFindChar (s : String) (c : Char) : Option Nat := pyFindCharGo c s.data 0

/-- Python slicing `s[n:]` (code-point based). -/
def pyDrop (s : String) (n : Nat) : String := ⟨s.data.drop n⟩

/-- Python slicing `s[:n]` (code-point based). -/
def pyTake (s : String) (n : Nat) : String := ⟨s.data.take n⟩

/-- Python slicing `s[i:j]` (code-point based). -/
def pySlice (s : String) (i j : Nat) : String := ⟨(s.data.take j).drop i⟩

/-- Python `len(s)` in code points. -/
def pyLen (s : String) : Nat := s.data.length

/-- Decimal digit test for Python `int(s)`. -/
def isDecDigit (c : Char) : Bool := '0' ≤ c && c ≤ '9'

/-- Hexadecimal digit test for Python `int(s, 16)`. -/
def isHexDigit (c : Char) : Bool :=
  isDecDigit c || ('a' ≤ c && c ≤ 'f') || ('A' ≤ c && c ≤ 'F')

/-- Numeric value of a (hex) digit character. -/
def hexVal (c : Char) : Nat :=
  if isDecDigit c then c.toNat - '0'.toNat
  else if 'a' ≤ c && c ≤ 'f' then c.toNat - 'a'.toNat + 10
  else if 'A' ≤ c && c ≤ 'F' then c.toNat - 'A'.toNat + 10
  else 0

/-- Digit-run after the first digit: digits with single underscores
permitted between digits (Python's integer-literal underscore rule). -/
def pyDigitRun (isD : Char → Bool) : List Char → Option (List Char)
  | [] => some []
  | '_' :: rest =>
    match rest with
    | c :: rest2 => if isD c then (pyDigitRun isD rest2).map (fun l => c :: l) else none
    | [] => none
  | c :: rest => if isD c then (pyDigitRun isD rest).map (fun l => c :: l) else none

/-- A full digit run: first character must be a digit. -/
def pyDigitsOf (isD : Char → Bool) : List Char → Option (List Char)
  | [] => none
  | c :: rest => if isD c then (pyDigitRun isD rest).map (fun l => c :: l) else none

/-- Fold digit characters into a `Nat` in the given base. -/
def digitsToNat (base : Nat) (ds : List Char) : Nat :=
  ds.foldl (fun a c => a * base + hexVal c) 0

/-- Model of Python `int(s)` (`base16 = false`) and `int(s, 16)`
(`base16 = true`) on ASCII input: optional surrounding whitespace, optional
sign, for base 16 an optional `0x`/`0X` marker (optionally followed by one
underscore), then digits with single underscores between them.  `none`
models `ValueError`. -/
def pyIntCore (base16 : Bool) (s : String) : Option Int :=
  let cs := stripList pyIsWs s.data
  let signed : Bool × List Char :=
    match cs with
    | '-' :: r => (true, r)
    | '+' :: r => (false, r)
    | r => (false, r)
  let body : List Char :=
    if base16 then
      match signed.2 with
      | '0' :: x :: r =>
        if x = 'x' || x = 'X' then
          match r with
          | '_' :: r2 => r2
          | _ => r
        else '0' :: x :: r
      | r => r
    else signed.2
  match pyDigitsOf (if base16 then isHexDigit else isDecDigit) body with
  | none => none
  | some ds =>
    let n : Int := Int.ofNat (digitsToNat (if base16 then 16 else 10) ds)
    some (if signed.1 then -n else n)

/-- Python `int(s)`. -/
def pyInt10 (s : String) : Option Int := pyIntCore false s

/-- Python `int(s, 16)`. -/
def pyInt16 (s : String) : Option Int := pyIntCore true s

/-! ## Python exceptions -/

/-- The Python exceptions the embedded code can raise.  `valueError` carries
the message of a deliberate `raise ValueError(...)`; `keyError`,
`indexError` and `assertionError` model the interpreter-raised exceptions
(`dict` miss, `deque`/`list` index out of range, failed `assert`). -/
inductive PyErr where
  | valueError (msg : String)
  | keyError
  | indexError
  | assertionError
deriving DecidableEq

/-! ## The node model: `Special`, `Tag`, `Element`, `EndTag`

Translated from `src/python_sri/parser.py`.  `Special` and its fixed
prefix/suffix subclasses are collapsed into one constructor of `Node`
below; `Element.children` is omitted because it is written during parsing
but never read by `stringify` or any other modelled operation; Python
object identity (default `==`) is modelled by the `id` field, assigned
from a counter in the parser state. -/

/-- Model of `Element` (parser.py:103).  `quote` is already resolved by the
constructor; `selfClosing` is the private `__self_closing` one-way latch. -/
structure Element where
  id : Nat
  name : String
  attrs : List (String × Option String)
  attrsChanged : List String
  void : Bool
  quote : String
  selfClosing : Bool
deriving DecidableEq

/-- Attribute deduplication in `Element.__init__`: first occurrence of a
name wins, later duplicates are dropped, insertion order preserved. -/
def attrsDedup (attrs : List (String × Option String)) : List (String × Option String) :=
  attrs.foldl (fun acc a => if acc.any (fun b => b.1 = a.1) then acc else acc ++ [a]) []

/-- Model of `Element.__init__(name, attrs, void, quote)` (parser.py:128).
`idv` is the identity tag supplied by the parser state. -/
def elementNew (idv : Nat) (name : String) (attrs : List (String × Option String))
    (void : Bool) (quote : Option String) : Element :=
  { id := idv
    name := name
    attrs := attrsDedup attrs
    attrsChanged := []
    void := void
    quote :=
      match quote with
      | none => "\""
      | some q => if q.data.length = 0 then "\"" else q
    selfClosing := false }

/-- One rendered attribute inside `Element.stringify` (parser.py:191):
always `name`, `=`, and the value (empty when `None`) wrapped in the
element's quote. -/
def attrRender (quote : String) (av : String × Option String) : String :=
  av.1 ++ "=" ++ quote ++ (match av.2 with | none => "" | some v => v) ++ quote

/-- Python `" ".join(l)`. -/
def joinSpace : List String → String
  | [] => ""
  | [s] => s
  | s :: rest => s ++ " " ++ joinSpace rest

/-- Model of `Element.stringify` (parser.py:188). -/
def Element.stringify (e : Element) : String :=
  let newAttrs := e.attrs.map (attrRender e.quote)
  ("<" ++ e.name)
    ++ (if newAttrs.length = 0 then "" else " " ++ joinSpace newAttrs)
    ++ ((if e.selfClosing then " /" else "") ++ ">")

/-- Look an attribute up by name (Python `self.__attrs[attr]` access,
without the `KeyError`). -/
def lookupAttr (attrs : List (String × Option String)) (a : String) :
    Option (Option String) :=
  (attrs.find? (fun p => p.1 = a)).map Prod.snd

/-- Python `dict` update semantics: overwrite in place or append. -/
def setAttr : List (String × Option String) → String → Option String →
    List (String × Option String)
  | [], a, v => [(a, v)]
  | (k, w) :: rest, a, v =>
    if k = a then (k, v) :: rest else (k, w) :: setAttr rest a v

/-- Python `set.add` on the changed-attribute set (list with set semantics). -/
def addChanged (s : List String) (a : String) : List String :=
  if s.contains a then s else s ++ [a]

/-- Model of `Element.__contains__` (parser.py:159). -/
def Element.hasAttr (e : Element) (a : String) : Bool :=
  (lookupAttr e.attrs a).isSome

/-- Model of `Element.__getitem__` (parser.py:148): a missing name raises
`KeyError`. -/
def Element.getItem (e : Element) (a : String) : Except PyErr (Option String) :=
  match lookupAttr e.attrs a with
  | some v => Except.ok v
  | none => Except.error PyErr.keyError

/-- Model of `Element.__setitem__` (parser.py:151): writes the value and
marks the attribute changed. -/
def Element.setItem (e : Element) (a : String) (v : String) : Element :=
  { e with attrs := setAttr e.attrs a (some v), attrsChanged := addChanged e.attrsChanged a }

/-- Model of `Element.__delitem__` (parser.py:155).  The source adds `attr`
to `__attrs_changed` FIRST and only then executes `del self.__attrs[attr]`,
so when the key is absent the `KeyError` escapes after the changed-set was
already mutated; the mutated object persists.  The returned pair is
(outcome, object state after the call). -/
def Element.delItem (e : Element) (a : String) : Except PyErr Unit × Element :=
  let e1 := { e with attrsChanged := addChanged e.attrsChanged a }
  if (lookupAttr e1.attrs a).isSome then
    (Except.ok (), { e1 with attrs := e1.attrs.filter (fun p => p.1 ≠ a) })
  else
    (Except.error PyErr.keyError, e1)

/-! ## The flat node sequence -/

/-- A node of the flat tree.  `Special` and its subclasses `Comment`
(prefix `!--`, suffix `--`), `Declaration` (prefix `!`), `UnknownDecl`
(prefix `![`, suffix `]`) are collapsed into the `special` constructor;
the three prefixes are distinct, so the prefix identifies the Python
class.  `endTag` stores the bare tag name (the Python object stores
`f"/{name}"`; rendering reinserts the slash) and the back-reference to
its opening `Element`. -/
inductive Node where
  | elem (e : Element)
  | endTag (name : String) (start : Element)
  | special (pre : String) (content : String) (suf : String)
  | text (s : String)
deriving DecidableEq

/-- `Comment(content)` (parser.py:63). -/
def mkComment (c : String) : Node := .special "!--" c "--"

/-- `Declaration(content)` (parser.py:72). -/
def mkDeclaration (c : String) : Node := .special "!" c ""

/-- `UnknownDecl(content)` (parser.py:81). -/
def mkUnknownDecl (c : String) : Node := .special "![" c "]"

/-- Python `str(node)`: `Special.stringify`, `Tag.stringify` for end tags,
`Element.stringify`, or the text itself. -/
def nodeStr : Node → String
  | .elem e => e.stringify
  | .endTag name _ => "<" ++ ("/" ++ name) ++ ">"
  | .special p c s => "<" ++ p ++ c ++ s ++ ">"
  | .text s => s

/-- Is this node a Python `Declaration` instance? -/
def isDeclNode : Node → Bool
  | .special p _ _ => p = "!"
  | _ => false

/-- Is this node a Python `Comment` instance? -/
def isCommentNode : Node → Bool
  | .special p _ _ => p = "!--"
  | _ => false

/-- Python `s.isspace()`: nonempty and all whitespace. -/
def pyIsSpaceStr (s : String) : Bool := !s.data.isEmpty && s.data.all pyIsWs

/-! ## Parser state -/

/-- The mutable state of a `Parser` instance (parser.py:216).  `warnings`
accumulates the messages delivered through `warnings.warn` (a side
channel in Python); `nextId` feeds `Element.id` so Python object identity
can be compared. -/
structure PState where
  rawdata : String
  quote : String
  tagStack : List Element
  flatTree : List Node
  sriTags : List Element
  inXml : Bool
  seenContentBeforePreamble : Bool
  seenPreamble : Bool
  badSelfClosing : List (Element × Option Element)
  warnings : List String
  nextId : Nat
deriving DecidableEq

/-- `Parser.__init__(quote)` (parser.py:240). -/
def pInit (quote : Option String) : PState :=
  { rawdata := ""
    quote := match quote with | none => "" | some q => q
    tagStack := []
    flatTree := []
    sriTags := []
    inXml := false
    seenContentBeforePreamble := false
    seenPreamble := false
    badSelfClosing := []
    warnings := []
    nextId := 0 }

/-- A fresh parser with no quote override. -/
def st0 : PState := pInit none

/-- `Parser.reset` (parser.py:280): clears the buffers but not the quote
style.  Delivered warnings are an external log and are kept. -/
def pReset (st : PState) : PState :=
  { st with
    rawdata := ""
    tagStack := []
    flatTree := []
    sriTags := []
    inXml := false
    seenContentBeforePreamble := false
    seenPreamble := false
    badSelfClosing := [] }

/-- The void element names of `Parser.__is_void` (parser.py:307). -/
def voidNames : List String :=
  ["area", "base", "br", "col", "embed", "hr", "img", "input", "keygen",
   "link", "menuitem", "meta", "param", "source", "track", "wbr",
   "basefont", "bgsound", "command", "frame", "image", "isindex",
   "nextid", "spacer"]

/-- `Parser.__is_void` (parser.py:307). -/
def isVoid (name : String) : Bool := voidNames.contains name

/-- The message of the quirks-mode `ValueError` (parser.py:336). -/
def quirksMsg : String :=
  "Given HTML is not fully compliant with the current spec, and would "
    ++ "trigger quirks mode, which is not supported by python_sri's inbuilt "
    ++ "parser"

/-- `Parser.__quirks` (parser.py:336): always raises. -/
def pQuirks : Except PyErr PState := Except.error (PyErr.valueError quirksMsg)

/-- `Parser.__add_to_tree(data, add_to_str)` (parser.py:413).  `data` is
always a `Special` or a string in the source; the update of the enclosing
element's `children` list is omitted because `children` is never read by
any modelled operation. -/
def addToTree (data : Node) (addToStr : Bool) (st : PState) : PState :=
  if isDeclNode data then { st with flatTree := st.flatTree ++ [data] }
  else
    let st1 :=
      if !(isCommentNode data
            || (match data with | .text s => pyIsSpaceStr s | _ => false)) then
        { st with seenContentBeforePreamble := true }
      else st
    match data, st1.flatTree.getLast? with
    | .text s, some (.text t) =>
      if addToStr then
        { st1 with flatTree := st1.flatTree.dropLast ++ [.text (t ++ s)] }
      else { st1 with flatTree := st1.flatTree ++ [data] }
    | _, _ => { st1 with flatTree := st1.flatTree ++ [data] }

/-! ## `Parser.stringify` (the serializer) -/

/-- The loop of `Parser.stringify` (parser.py:291): walk the flat
sequence, pushing non-void Elements on a local stack and popping on every
EndTag; `deque.pop()` on an empty stack raises `IndexError`.  No name or
back-reference check is performed. -/
def stringifyGo : List Node → List Element → String → Except PyErr String
  | [], _, acc => Except.ok acc
  | n :: rest, stack, acc =>
    match n with
    | .elem e =>
      stringifyGo rest (if e.void then stack else stack ++ [e]) (acc ++ nodeStr n)
    | .endTag _ _ =>
      match stack.getLast? with
      | none => Except.error PyErr.indexError
      | some _ => stringifyGo rest stack.dropLast (acc ++ nodeStr n)
    | _ => stringifyGo rest stack (acc ++ nodeStr n)

/-- `Parser.stringify` (parser.py:291). -/
def pStringify (st : PState) : Except PyErr String := stringifyGo st.flatTree [] ""

/-! ## Character references: `handle_charref` -/

/-- Warning text of the out-of-range case (parser.py:593). -/
def warnOutsideRange : String :=
  "Character reference outside valid Unicode range. This has been "
    ++ "replaced with &#xFFFD; (case sensitive) in the output, as per spec"

/-- Warning text of the surrogate case (parser.py:606). -/
def warnSurrogateRef : String :=
  "Character reference is a surrogate. This has been "
    ++ "replaced with &#xFFFD; (case sensitive) in the output, as per spec"

/-- Warning text of the null case (parser.py:615). -/
def warnNullRef : String :=
  "Character reference is null (U+0000). This has been "
    ++ "replaced with &#xFFFD; (case sensitive) in the output, as per spec"

/-- `self.__unicode_range` (parser.py:265). -/
def unicodeRange : Int × Int := (0x0, 0x10FFFF)

/-- `self.__surrogate_range` (parser.py:275). -/
def surrogateRange : (Int × Int) × (Int × Int) := ((0xD800, 0xDBFF), (0xDC00, 0xDFFF))

/-- The numeric parse performed by `handle_charref` (parser.py:575-588):
hex when the name starts with `x`/`X` and has length at least 2,
decimal otherwise; `none` models the caught `ValueError`. -/
def charrefParse (name : String) : Option Int :=
  if pyStartsWith (pyLower name) "x" && decide (2 ≤ pyLen name) then
    pyInt16 (pyDrop name 1)
  else
    pyInt10 name

/-- `Parser.handle_charref` (parser.py:574). -/
def handleCharref (name : String) (st : PState) : PState :=
  match charrefParse name with
  | none => addToTree (.text ("&#" ++ name ++ ";")) true st
  | some num =>
    if ¬(unicodeRange.1 ≤ num ∧ num ≤ unicodeRange.2) then
      addToTree (.text "&#xFFFD;") true
        { st with warnings := st.warnings ++ [warnOutsideRange] }
    else if (surrogateRange.1.1 ≤ num ∧ num ≤ surrogateRange.1.2)
        ∨ (surrogateRange.2.1 ≤ num ∧ num ≤ surrogateRange.2.2) then
      addToTree (.text "&#xFFFD;") true
        { st with warnings := st.warnings ++ [warnSurrogateRef] }
    else if num = 0 then
      addToTree (.text "&#xFFFD;") true
        { st with warnings := st.warnings ++ [warnNullRef] }
    else
      addToTree (.text ("&#" ++ name ++ ";")) true st

/-! ## Named references: `handle_entityref` -/

/-- Modelled from the spec: the fragment of the HTML5 named character
reference table (`html.entities.html5` from the Python standard library,
which is not part of this repository) relevant to the inputs considered
here.  Keys are stored with their terminating semicolon because the
source only ever queries keys of the form `f"{actual};"`. -/
def html5Entities : List String :=
  ["amp;", "lt;", "gt;", "quot;", "apos;", "semi;", "sol;", "num;",
   "colon;", "excl;", "not;", "notin;"]

/-- The loop of `Parser.handle_entityref` (parser.py:566-571): grow the
candidate prefix one character at a time from the first character and stop
at the first (hence shortest) prefix whose semicolon-terminated form is in
the table, returning it with the unconsumed remainder. -/
def entityLoop (table : List String) (actual : String) : List Char → Option (String × String)
  | [] => none
  | c :: rs =>
    let actual2 := actual.push c
    if table.contains (actual2 ++ ";") then some (actual2, ⟨rs⟩)
    else entityLoop table actual2 rs

/-- `Parser.handle_entityref` (parser.py:563). -/
def handleEntityref (name : String) (st : PState) : PState :=
  match entityLoop html5Entities "" name.data with
  | some (actual, rest) => addToTree (.text ("&" ++ actual ++ ";" ++ rest)) true st
  | none => addToTree (.text ("&amp;" ++ name ++ "&semi;")) true st

/-- The nonempty prefixes of `name` with their remainders, shortest
first. -/
def prefixesShortestFirst (name : String) : List (String × String) :=
  (List.range name.data.length).map (fun k => (pyTake name (k + 1), pyDrop name (k + 1)))

/-- Shortest-match resolution: the first (shortest) nonempty prefix whose
semicolon-terminated form is in the table. -/
def shortestEntityMatch (table : List String) (name : String) : Option (String × String) :=
  (prefixesShortestFirst name).find? (fun p => table.contains (p.1 ++ ";"))

/-- Modelled from the spec's words for claim C6 (the refuted reading):
greedy longest-match, starting from the full candidate token and
shortening one character at a time. -/
def longestEntityMatch (table : List String) (name : String) : Option (String × String) :=
  ((List.range name.data.length).map
    (fun k => (pyTake name (name.data.length - k), pyDrop name (name.data.length - k)))).find?
    (fun p => table.contains (p.1 ++ ";"))

/-! ## List operations with Python index semantics -/

/-- Python `l[i]` read: `IndexError` when out of range. -/
def pyGet (l : List α) (i : Nat) : Except PyErr α :=
  match l[i]? with
  | some a => Except.ok a
  | none => Except.error PyErr.indexError

/-- Python `l[i] = a`: `IndexError` when out of range. -/
def pySetL (l : List α) (i : Nat) (a : α) : Except PyErr (List α) :=
  if i < l.length then Except.ok (l.set i a) else Except.error PyErr.indexError

/-- Python `del l[i]`: `IndexError` when out of range. -/
def pyDelL (l : List α) (i : Nat) : Except PyErr (List α) :=
  if i < l.length then Except.ok (l.eraseIdx i) else Except.error PyErr.indexError

/-- Python `s.split(sep)` for a one-character separator: splits at every
occurrence, keeping empty pieces. -/
def splitSepGo (sep : Char) : List Char → List Char → List String
  | [], acc => [⟨acc.reverse⟩]
  | c :: rest, acc =>
    if c = sep then ⟨acc.reverse⟩ :: splitSepGo sep rest []
    else splitSepGo sep rest (c :: acc)

/-- Python `s.split(sep)` (single-character separator). -/
def pySplitSep (sep : Char) (s : String) : List String := splitSepGo sep s.data []

/-! ## The XML-name re-scan (`__bits_regex`, parser.py:253)

`__start_tag` re-parses the raw start-tag text case-sensitively inside
foreign content with
`([NameStart][NameChar]*)(=((['"].+?['"])|(.+?)))?` applied by
`re.finditer`.  The character classes below are the ranges written in the
source; the match loop below reproduces the regex's leftmost, non-greedy
semantics: a quoted value extends to the nearest quote character at
distance two or more from the opening one, an unquoted value is a single
character, and a trailing `=` with nothing matchable after it is dropped
from the match. -/

/-- The XML `NameStartChar` class of `__bits_regex`. -/
def xmlNameStartChar (c : Char) : Bool :=
  c = ':' || ('A' ≤ c && c ≤ 'Z') || c = '_' || ('a' ≤ c && c ≤ 'z')
  || (0xC0 ≤ c.val && c.val ≤ 0xD6) || (0xD8 ≤ c.val && c.val ≤ 0xF6)
  || (0xF8 ≤ c.val && c.val ≤ 0x2FF) || (0x370 ≤ c.val && c.val ≤ 0x37D)
  || (0x37F ≤ c.val && c.val ≤ 0x1FFF) || (0x200C ≤ c.val && c.val ≤ 0x200D)
  || (0x2070 ≤ c.val && c.val ≤ 0x218F) || (0x2C00 ≤ c.val && c.val ≤ 0x2FEF)
  || (0x3001 ≤ c.val && c.val ≤ 0xD7FF) || (0xF900 ≤ c.val && c.val ≤ 0xFDCF)
  || (0xFDF0 ≤ c.val && c.val ≤ 0xFFFD) || (0x10000 ≤ c.val && c.val ≤ 0xEFFFF)

/-- The XML `NameChar` class of `__bits_regex`. -/
def xmlNameChar (c : Char) : Bool :=
  xmlNameStartChar c || c = '-' || c = '.' || ('0' ≤ c && c ≤ '9')
  || c.val = 0xB7 || (0x300 ≤ c.val && c.val ≤ 0x36F)
  || (0x203F ≤ c.val && c.val ≤ 0x2040)

/-- `self.__quotes` (parser.py:262). -/
def quoteChars : List Char := ['"', '\'']

/-- Is this character one of the two quote marks? -/
def isQuoteChar (c : Char) : Bool := c = '"' || c = '\''

/-- `re.finditer(__bits_regex, s)`, returning each match's `group(0)`. -/
def findBitsGo : Nat → List Char → List String
  | 0, _ => []
  | _ + 1, [] => []
  | f + 1, c :: rest =>
    if xmlNameStartChar c then
      let nm := c :: rest.takeWhile xmlNameChar
      let after := rest.dropWhile xmlNameChar
      match after with
      | '=' :: v :: vs =>
        if isQuoteChar v then
          match (vs.drop 1).findIdx? isQuoteChar with
          | some k0 =>
            ⟨nm ++ '=' :: v :: vs.take (k0 + 2)⟩ :: findBitsGo f (vs.drop (k0 + 2))
          | none =>
            ⟨nm ++ ['=', v]⟩ :: findBitsGo f vs
        else ⟨nm ++ ['=', v]⟩ :: findBitsGo f vs
      | _ => ⟨nm⟩ :: findBitsGo f after
    else findBitsGo f rest

/-- All regex matches of `__bits_regex` over a string. -/
def findBits (s : String) : List String := findBitsGo (s.data.length + 1) s.data

/-! ## Start and end tag handlers -/

/-- `self.__foreign_content_start_tags` (parser.py:263). -/
def foreignContentStartTags : List String := ["svg", "math"]

/-- The attribute-correction loop of `__start_tag` (parser.py:385-393):
for each further regex match, `tuple(bits.group(0).split("="))` is
unpacked into exactly two names (a `ValueError` escapes otherwise), the
case-corrected key replaces `attrs[i]`'s key, and the first quote mark
seen at the head of a value sets the parser quote style when it is still
unset. -/
def xmlAttrLoop : List String → Nat → List (String × Option String) → String →
    Except PyErr (List (String × Option String) × String)
  | [], _, attrs, q => Except.ok (attrs, q)
  | b :: rest, i, attrs, q => do
    match pySplitSep '=' b with
    | [key, value] => do
      let old ← pyGet attrs i
      let attrs2 ← pySetL attrs i (key, old.2)
      let q2 :=
        if q.data.length = 0 ∧ 0 < value.data.length
            ∧ quoteChars.contains (value.data.headD ' ') then
          (⟨[value.data.headD ' ']⟩ : String)
        else q
      xmlAttrLoop rest (i + 1) attrs2 q2
    | [_] => Except.error (PyErr.valueError "not enough values to unpack (expected 2, got 1)")
    | _ => Except.error (PyErr.valueError "too many values to unpack (expected 2)")

/-- The foreign-content re-scan of `__start_tag` (parser.py:377-393) as a
pure step: given the in-XML flag and the current quote style, returns the
(possibly case-corrected) name, attributes and quote style. -/
def startTagRescan (inXml : Bool) (quote : String) (name0 : String)
    (attrs0 : List (String × Option String)) (text : Option String) :
    Except PyErr (String × List (String × Option String) × String) :=
  if inXml then
    match text with
    | some t => do
      let bits := findBits (pyStrip (pyStripSet ['<', '>', '/'] (pyStrip t)))
      let b0 ← pyGet bits 0
      if 2 ≤ bits.length then do
        let al ← xmlAttrLoop (bits.drop 1) 0 attrs0 quote
        pure (b0, al.1, al.2)
      else pure (b0, attrs0, quote)
    | none => pure (name0, attrs0, quote)
  else pure (name0, attrs0, quote)

/-- `Parser.__start_tag(name, attrs, self_closing)` (parser.py:370).
`text` is `self.get_starttag_text()` (the raw tag text). -/
def startTagM (name0 : String) (attrs0 : List (String × Option String))
    (selfClosing : Bool) (text : Option String) (st : PState) :
    Except PyErr PState := do
  let st := { st with seenContentBeforePreamble := true }
  let st := if foreignContentStartTags.contains name0 then { st with inXml := true } else st
  let resc ← startTagRescan st.inXml st.quote name0 attrs0 text
  let name := resc.1
  let attrs := resc.2.1
  let st := { st with quote := resc.2.2 }
  let void := isVoid name
  let tag0 := elementNew st.nextId name attrs void (some st.quote)
  let st := { st with nextId := st.nextId + 1 }
  let st :=
    if ¬void ∧ selfClosing ∧ ¬st.inXml then
      { st with badSelfClosing := st.badSelfClosing ++ [(tag0, st.tagStack.getLast?)] }
    else st
  let tag := if st.inXml ∧ selfClosing then { tag0 with selfClosing := true } else tag0
  let st := { st with flatTree := st.flatTree ++ [Node.elem tag] }
  let st := if ¬(void ∨ selfClosing) then { st with tagStack := st.tagStack ++ [tag] } else st
  if tag.name = "script" ∨ tag.name = "link" then
    pure { st with
      sriTags := st.sriTags ++ (attrs.filter (fun a => a.1 = "integrity")).map (fun _ => tag) }
  else pure st

/-- The fatal foreign-content mismatch message (parser.py:448). -/
def xmlMismatchMsg : String :=
  "End tag does not match up with start tag inside foreign (XML) " ++ "content"

/-- `Parser.handle_endtag` (parser.py:440).  In foreign content the top of
`__tag_stack` is read with `[-1]`, which raises `IndexError` on an empty
deque. -/
def handleEndtagM (tag : String) (st : PState) : Except PyErr PState := do
  let name ←
    if st.inXml then
      match st.tagStack.getLast? with
      | none => Except.error PyErr.indexError
      | some top =>
        if tag = pyLower top.name then Except.ok top.name
        else Except.error (PyErr.valueError xmlMismatchMsg)
    else Except.ok tag
  let st := if foreignContentStartTags.contains (pyLower name) then
      { st with inXml := false }
    else st
  if isVoid (pyLower name) then pure st
  else
    match st.tagStack.getLast? with
    | none => pure st
    | some top =>
      if name ≠ top.name then pure st
      else
        let st := { st with tagStack := st.tagStack.dropLast }
        let st :=
          match st.badSelfClosing.getLast? with
          | some (badTag, some encl) =>
            if top.id = encl.id then
              let st2 := { st with flatTree := st.flatTree ++ [Node.endTag badTag.name badTag] }
              { st2 with badSelfClosing := st2.badSelfClosing.dropLast }
            else st
          | _ => st
        pure { st with flatTree := st.flatTree ++ [Node.endTag name top] }

/-! ## Comment, PI and unknown-declaration handlers -/

/-- `Parser.handle_comment` (parser.py:622): re-append `-`, `-`, `!`
cumulatively until the text is a suffix of the raw buffer; if all three
were added without success, undo the additions. -/
def handleCommentM (data : String) (st : PState) : PState :=
  if 0 < pyLen data ∧ pyEndsWith st.rawdata data then
    addToTree (mkComment data) false st
  else if pyEndsWith st.rawdata (data ++ "-") then
    addToTree (mkComment (data ++ "-")) false st
  else if pyEndsWith st.rawdata (data ++ "--") then
    addToTree (mkComment (data ++ "--")) false st
  else
    addToTree (mkComment data) false st

/-- `Parser.handle_pi` (parser.py:744). -/
def handlePiM (data : String) (st : PState) : PState :=
  addToTree (mkComment ("?" ++ data)) false st

/-- `Parser.unknown_decl` (parser.py:747): strip every trailing `]`, then
re-wrap as `UnknownDecl` inside foreign content or as a `Comment` outside;
the final branch is an `AssertionError`. -/
def unknownDeclM (data : String) (st : PState) : Except PyErr PState :=
  let d : String := ⟨(data.data.reverse.dropWhile (fun c => c = ']')).reverse⟩
  if st.inXml ∧ pyStartsWith (pyLower d) "cdata[" then
    Except.ok (addToTree (mkUnknownDecl (d ++ "]")) false st)
  else if ¬st.inXml ∧ pyStartsWith (pyLower d) "cdata[" then
    Except.ok (addToTree (mkComment ("[" ++ d ++ "]]")) false st)
  else Except.error PyErr.assertionError

/-! ## DOCTYPE handling (`handle_decl`) -/

/-- The preamble-ordering error message (parser.py:667). -/
def preambleMsg : String :=
  "Only whitespace and HTML comments are allowed before the DOCTYPE"

/-- The inner loop of `__doctype_public_system_identifier`
(parser.py:652-661), with the Python list mutations made explicit. -/
def declHelperLoop (quote : Char) (i : Nat) :
    List String → Nat → List String → Except PyErr (List String)
  | [], _, parts => Except.ok parts
  | idPart :: rest, j, parts =>
    if j = 0 then declHelperLoop quote i rest (j + 1) parts
    else do
      let cur ← pyGet parts i
      let parts ← pySetL parts i (cur ++ " " ++ idPart)
      if pyInStr ⟨[quote]⟩ idPart then do
        let e := (match pyFindChar idPart quote with | some k => k | none => 0) + 1
        let nxt ← pyGet parts (i + 1)
        let parts ← pySetL parts (i + 1) (pyDrop nxt e)
        let nxt2 ← pyGet parts (i + 1)
        if nxt2 = "" then do
          let parts ← pyDelL parts (i + 1)
          declHelperLoop quote i rest (j + 1) parts
        else declHelperLoop quote i rest (j + 1) parts
      else do
        let parts ← pyDelL parts (i + 1)
        declHelperLoop quote i rest (j + 1) parts

/-- `Parser.__doctype_public_system_identifier` (parser.py:635).  The
Python `True` result is `none`; a new parts list is `some`. -/
def declHelper (restOfDecl : String) (parts : List String) (i : Nat) (quote : Char) :
    Except PyErr (Option (List String)) := do
  if pyLen restOfDecl < 2 then Except.error PyErr.assertionError
  else
    let identifierEnd :=
      match pyFindChar (pyDrop restOfDecl 1) quote with
      | some k => k + 2
      | none => 1
    if identifierEnd = 1 then Except.error (PyErr.valueError quirksMsg)
    else
      let identifier := pyTake restOfDecl identifierEnd
      let rest2 := pyDrop restOfDecl identifierEnd
      if pyLen rest2 = 0 then pure none
      else do
        let parts2 ← declHelperLoop quote i (pySplit identifier) 0 parts
        pure (some parts2)

/-- The whitespace normalization at the head of `handle_decl`
(parser.py:672): insert a space after `DOCTYPE` when the 8th character is
not whitespace. -/
def declNormalize (decl : String) : String :=
  if 7 < pyLen decl ∧ ¬pyIsWs (decl.data.getD 7 ' ') then
    pyTake decl 7 ++ " " ++ pyDrop decl 7
  else decl

/-- The token list `parts` of `handle_decl` (parser.py:674). -/
def declParts (decl : String) : List String :=
  pySplit (pyStrip (pyDrop (declNormalize decl) 7))

/-- The state-independent part of `Parser.handle_decl` (parser.py:665):
computes the content of the `Declaration` node to emit, or the fatal
error. -/
def handleDeclPure (decl : String) : Except PyErr String := do
  let declN := declNormalize decl
  let parts := declParts decl
  if ¬(1 ≤ parts.length ∧ pyLower (parts.headD "") = "html") then
    Except.error (PyErr.valueError quirksMsg)
  else if parts.length = 1 then
    pure declN
  else do
    let p1 ← pyGet parts 1
    let identifierType ←
      if pyStartsWith (pyUpper p1) "PUBLIC" then Except.ok "public"
      else if pyStartsWith (pyUpper p1) "SYSTEM" then Except.ok "system"
      else Except.error (PyErr.valueError quirksMsg)
    let reshaped : List String × String :=
      if 6 < pyLen p1 then
        (match parts with
         | p0 :: _ :: rest => [p0, pyTake p1 6, pyDrop p1 6] ++ rest
         | l => l,
         pyTake declN 19 ++ " " ++ pyDrop declN 19)
      else (parts, declN)
    let parts := reshaped.1
    let declN := reshaped.2
    if parts.length < 3 then Except.error (PyErr.valueError quirksMsg)
    else do
      let p2 ← pyGet parts 2
      let quote ←
        if pyStartsWith p2 "'" then Except.ok '\''
        else if pyStartsWith p2 "\"" then Except.ok '"'
        else Except.error (PyErr.valueError quirksMsg)
      if identifierType = "system"
          ∧ p2 = (⟨[quote]⟩ : String) ++ "about:legacy-compat" ++ (⟨[quote]⟩ : String)
          ∧ parts.length = 3 then
        pure declN
      else do
        let res ← declHelper (joinSpace (parts.drop 2)) parts 2 quote
        match res with
        | none => pure declN
        | some parts2 =>
          if identifierType = "system" then do
            let dp0 ← pyGet (pySplit declN) 0
            pure (dp0 ++ " " ++ joinSpace (parts2.take 3))
          else do
            let p3 ← pyGet parts2 3
            let quote2 ←
              if pyStartsWith p3 "'" then Except.ok '\''
              else if pyStartsWith p3 "\"" then Except.ok '"'
              else Except.error (PyErr.valueError quirksMsg)
            let res2 ← declHelper (joinSpace (parts2.drop 3)) parts2 3 quote2
            let partsF := match res2 with | none => parts2 | some q => q
            let dp0 ← pyGet (pySplit declN) 0
            pure (dp0 ++ " " ++ joinSpace (partsF.take 5))

/-- `Parser.handle_decl` (parser.py:665): the preamble-ordering check,
then `seen_preamble` is set and the computed `Declaration` is appended
(all of the handler's state effects). -/
def handleDecl (decl : String) (st : PState) : Except PyErr PState :=
  if st.seenContentBeforePreamble ∧ ¬st.seenPreamble then
    Except.error (PyErr.valueError preambleMsg)
  else
    match handleDeclPure decl with
    | .error e => .error e
    | .ok c => .ok (addToTree (mkDeclaration c) false { st with seenPreamble := true })

/-! ## The tokenizer (`html.parser.HTMLParser.goahead`)

Modelled from the spec: the character-by-character scanner that `feed`
inherits from the Python standard library (`html.parser`, not part of this
repository).  It classifies each run into text, start tag, end tag,
comment, declaration, processing instruction, marked section, or character
reference and dispatches to the repository's handlers, with the stdlib's
end-of-input recovery (an unterminated construct at `end` is re-emitted as
data up to the next `>` or `<`).  The model is faithful for well-formed
constructs and the recovery paths exercised here; the `script`/`style`
CDATA content mode and exotic malformed-markup corners are outside its
scope. -/

/-- ASCII letter. -/
def isAsciiLetter (c : Char) : Bool := ('a' ≤ c && c ≤ 'z') || ('A' ≤ c && c ≤ 'Z')

/-- Advance `i` over characters satisfying `p` (bounded by fuel). -/
def scanWhile (p : Char → Bool) (raw : List Char) : Nat → Nat → Nat
  | 0, i => i
  | f + 1, i =>
    match raw[i]? with
    | some c => if p c then scanWhile p raw f (i + 1) else i
    | none => i

/-- First index `≥ i` whose character satisfies `p`. -/
def findIdxFrom (p : Char → Bool) (raw : List Char) (i : Nat) : Option Nat :=
  match (raw.drop i).findIdx? p with
  | some k => some (i + k)
  | none => none

/-- `raw[i:j]` as a string. -/
def sliceL (raw : List Char) (i j : Nat) : String := ⟨(raw.take j).drop i⟩

/-- From index `m`, skip whitespace and expect `>`; returns the index
after the `>`. -/
def wsThenGt (raw : List Char) (m : Nat) : Option Nat :=
  let q := scanWhile pyIsWs raw (raw.length + 1) m
  match raw[q]? with
  | some '>' => some (q + 1)
  | _ => none

/-- First match of `--\s*>` at or after `m`: returns (match start, index
after the `>`). -/
def findCommentClose (raw : List Char) : Nat → Nat → Option (Nat × Nat)
  | 0, _ => none
  | f + 1, m =>
    match raw[m]? with
    | none => none
    | some c =>
      if c = '-' ∧ raw[m + 1]? = some '-' then
        match wsThenGt raw (m + 2) with
        | some k => some (m, k)
        | none => findCommentClose raw f (m + 1)
      else findCommentClose raw f (m + 1)

/-- First match of `]\s*>` at or after `m`: returns (match start, index
after the `>`). -/
def findMarkedClose (raw : List Char) : Nat → Nat → Option (Nat × Nat)
  | 0, _ => none
  | f + 1, m =>
    match raw[m]? with
    | none => none
    | some c =>
      if c = ']' then
        match wsThenGt raw (m + 1) with
        | some k => some (m, k)
        | none => findMarkedClose raw f (m + 1)
      else findMarkedClose raw f (m + 1)

/-- The attribute loop of the stdlib's `parse_starttag`
(`attrfind_tolerant`): attribute names are lowercased, `=` may be
surrounded by whitespace, values are single- or double-quoted (quotes
stripped) or unquoted (up to whitespace or `>`), and a stray `/` not
followed by `>` is skipped.  Returns (attrs, self-closing?, index after
`>`), or `none` when the tag is unterminated. -/
def parseAttrs (raw : List Char) : Nat → Nat → List (String × Option String) →
    Option (List (String × Option String) × Bool × Nat)
  | 0, _, _ => none
  | f + 1, i0, acc =>
    let i := scanWhile pyIsWs raw (raw.length + 1) i0
    match raw[i]? with
    | none => none
    | some '>' => some (acc, false, i + 1)
    | some '/' =>
      if raw[i + 1]? = some '>' then some (acc, true, i + 2)
      else parseAttrs raw f (i + 1) acc
    | some _ =>
      let j := scanWhile (fun c => !(pyIsWs c || c = '/' || c = '=' || c = '>')) raw
        (raw.length + 1) i
      let aname := pyLower (sliceL raw i j)
      let j2 := scanWhile pyIsWs raw (raw.length + 1) j
      if raw[j2]? = some '=' then
        let j3 := scanWhile (fun c => c = '=') raw (raw.length + 1) j2
        let j4 := scanWhile pyIsWs raw (raw.length + 1) j3
        match raw[j4]? with
        | some '"' =>
          match findIdxFrom (fun c => c = '"') raw (j4 + 1) with
          | some q => parseAttrs raw f (q + 1) (acc ++ [(aname, some (sliceL raw (j4 + 1) q))])
          | none => none
        | some '\'' =>
          match findIdxFrom (fun c => c = '\'') raw (j4 + 1) with
          | some q => parseAttrs raw f (q + 1) (acc ++ [(aname, some (sliceL raw (j4 + 1) q))])
          | none => none
        | some _ =>
          let v := scanWhile (fun c => !(pyIsWs c || c = '>')) raw (raw.length + 1) j4
          parseAttrs raw f v (acc ++ [(aname, some (sliceL raw j4 v))])
        | none => none
      else parseAttrs raw f j (acc ++ [(aname, none)])

/-- The stdlib's `parse_starttag` at index `i` (which holds `<` followed
by a letter): returns (lowercased name, attrs, self-closing?, raw tag
text, index after `>`), or `none` when unterminated. -/
def parseStartTag (raw : List Char) (i : Nat) :
    Option (String × List (String × Option String) × Bool × String × Nat) :=
  match raw[i + 1]? with
  | some c =>
    if isAsciiLetter c then
      let j := scanWhile (fun d => !(pyIsWs d || d = '/' || d = '>' || d = '\x00')) raw
        (raw.length + 1) (i + 1)
      match parseAttrs raw (raw.length + 1) j [] with
      | some (attrs, sc, k) =>
        some (pyLower (sliceL raw (i + 1) j), attrs, sc, sliceL raw i k, k)
      | none => none
    else none
  | none => none

/-- Outcome of the stdlib's `parse_endtag`. -/
inductive EndTagParse where
  | incomplete
  | skip (k : Nat)
  | ev (name : String) (k : Nat)
  | dataTok (s : String) (k : Nat)
deriving DecidableEq

/-- The stdlib's `parse_endtag` at index `i` (which holds `</`): a
well-formed end tag produces an event with its lowercased name (extra
attributes skipped up to the `>`), `</>` is consumed silently, `</` +
non-letter is re-emitted as data up to the `>`, and a missing `>` is
incomplete. -/
def parseEndTag (raw : List Char) (i : Nat) : EndTagParse :=
  match findIdxFrom (fun c => c = '>') raw (i + 1) with
  | none => .incomplete
  | some gt =>
    let p := scanWhile pyIsWs raw (raw.length + 1) (i + 2)
    match raw[p]? with
    | some c =>
      if isAsciiLetter c then
        let j := scanWhile
          (fun d => isAsciiLetter d || isDecDigit d || d = '-' || d = '.' || d = ':' || d = '_')
          raw (raw.length + 1) (p + 1)
        let nm := pyLower (sliceL raw p j)
        let q := scanWhile pyIsWs raw (raw.length + 1) j
        if raw[q]? = some '>' then .ev nm (q + 1)
        else
          match findIdxFrom (fun c => c = '>') raw j with
          | some g2 => .ev nm (g2 + 1)
          | none => .ev nm (gt + 1)
      else
        if raw[i + 2]? = some '>' then .skip (i + 3)
        else .dataTok (sliceL raw i gt) gt
    | none => .incomplete

/-- The stdlib's `charref` regex
(`&#(?:[0-9]+|[xX][0-9a-fA-F]+)[^0-9a-fA-F]`) matched at index `i`:
returns the reference name (between `&#` and the terminator) and the
continuation index (after the terminator only when it is `;`). -/
def parseCharref (raw : List Char) (i : Nat) : Option (String × Nat) :=
  match raw[i + 2]? with
  | some c =>
    if c = 'x' ∨ c = 'X' then
      let j := scanWhile isHexDigit raw (raw.length + 1) (i + 3)
      if j = i + 3 then none
      else
        match raw[j]? with
        | some t => some (sliceL raw (i + 2) j, if t = ';' then j + 1 else j)
        | none => none
    else if isDecDigit c then
      let j := scanWhile isDecDigit raw (raw.length + 1) (i + 2)
      match raw[j]? with
      | some t =>
        if isHexDigit t then none
        else some (sliceL raw (i + 2) j, if t = ';' then j + 1 else j)
      | none => none
    else none
  | none => none

/-- The stdlib's `entityref` regex (`&([a-zA-Z][-.a-zA-Z0-9]*)[^a-zA-Z0-9]`)
matched at index `i`. -/
def parseEntityref (raw : List Char) (i : Nat) : Option (String × Nat) :=
  match raw[i + 1]? with
  | some c =>
    if isAsciiLetter c then
      let j := scanWhile
        (fun d => isAsciiLetter d || isDecDigit d || d = '-' || d = '.') raw
        (raw.length + 1) (i + 2)
      match raw[j]? with
      | some t => some (sliceL raw (i + 1) j, if t = ';' then j + 1 else j)
      | none => none
    else none
  | none => none

/-- The three mutually recursive activities of the scanner: the `goahead`
loop itself, the repository's `handle_data`, and `handle_data`'s tail
(which can re-enter `goahead` on the buffered `&#` recovery path).  One
joint fuel argument makes the recursion structural. -/
inductive GoCall where
  | loop (endF : Bool) (raw : String) (i : Nat)
  | dataEv (s : String)
  | dataTail (s : String) (added : Bool)

/-- Remove one trailing character from the last flat-tree node when it is
a string and `added` is set (handle_data's undo of the `<`-merge). -/
def trimLastTextOne (added : Bool) (st : PState) : PState :=
  if added then
    match st.flatTree.getLast? with
    | some (.text s) =>
      { st with flatTree := st.flatTree.dropLast ++ [.text (pyTake s (pyLen s - 1))] }
    | _ => st
  else st

/-- One decision of the `goahead` loop, as data: stop (writing the
leftover from the given index), run a handler and continue, emit a
`handle_data` event and continue, or emit a `handle_data` event and stop
(writing the leftover from the given index).  The decision depends only
on the buffer, the position and the `end` flag, never on the parser
state. -/
inductive LoopAct where
  | stopAt (i : Nat)
  | handler (act : PState → Except PyErr PState) (k : Nat)
  | dataAct (s : String) (k : Nat)
  | dataStop (s : String) (i : Nat)

/-- Recovery action of the `goahead` loop for an unterminated construct at
position `j`: wait for more data while feeding, or emit up to the next
closing angle bracket at end of the stream. -/
def recovAct (endF : Bool) (raw : String) (j : Nat) : LoopAct :=
  if ¬endF then .stopAt j
  else
    let k :=
      match findIdxFrom (fun c => c = '>') raw.data (j + 1) with
      | some g => g + 1
      | none =>
        match findIdxFrom (fun c => c = '<') raw.data (j + 1) with
        | some l => l
        | none => j + 1
    .dataAct (pySlice raw j k) k

/-- The construct dispatch of the `goahead` loop at the position `j` of a
`<` or `&`. -/
def loopStepAt (endF : Bool) (raw : String) (j : Nat) : LoopAct :=
  let rawL := raw.data
  let nn := rawL.length
  if nn ≤ j then .stopAt j
  else
    let recov : LoopAct := recovAct endF raw j
    match rawL[j]? with
    | some '<' =>
      if (match rawL[j + 1]? with | some c => isAsciiLetter c | none => false) then
        match parseStartTag rawL j with
        | some (nm, attrs, sc, text, k) => .handler (startTagM nm attrs sc (some text)) k
        | none => recov
      else if rawL[j + 1]? = some '/' then
        match parseEndTag rawL j with
        | .incomplete => recov
        | .skip k => .handler Except.ok k
        | .ev nm k => .handler (handleEndtagM nm) k
        | .dataTok s k => .dataAct s k
      else if listStartsWith (rawL.drop j) "<!--".data then
        match findCommentClose rawL (nn + 1) (j + 4) with
        | some (m, k) =>
          .handler (fun st => Except.ok (handleCommentM (sliceL rawL (j + 4) m) st)) k
        | none => recov
      else if rawL[j + 1]? = some '?' then
        match findIdxFrom (fun c => c = '>') rawL (j + 2) with
        | some g =>
          .handler (fun st => Except.ok (handlePiM (sliceL rawL (j + 2) g) st)) (g + 1)
        | none => recov
      else if rawL[j + 1]? = some '!' then
        if pyLower (sliceL rawL j (j + 9)) = "<!doctype" then
          match findIdxFrom (fun c => c = '>') rawL (j + 2) with
          | some g => .handler (handleDecl (sliceL rawL (j + 2) g)) (g + 1)
          | none => recov
        else if rawL[j + 2]? = some '[' then
          match findMarkedClose rawL (nn + 1) (j + 3) with
          | some (m, k) => .handler (unknownDeclM (sliceL rawL (j + 3) m)) k
          | none => recov
        else
          match findIdxFrom (fun c => c = '>') rawL (j + 2) with
          | some g =>
            .handler (fun st => Except.ok (handleCommentM (sliceL rawL (j + 2) g) st)) (g + 1)
          | none => recov
      else if j + 1 < nn ∨ endF then .dataAct "<" (j + 1)
      else .stopAt j
    | some '&' =>
      if rawL[j + 1]? = some '#' then
        match parseCharref rawL j with
        | some (nm, k) => .handler (fun st => Except.ok (handleCharref nm st)) k
        | none =>
          if pyInStr ";" (pyDrop raw j) then .dataStop "&#" (j + 2)
          else .stopAt j
      else
        match parseEntityref rawL j with
        | some (nm, k) => .handler (fun st => Except.ok (handleEntityref nm st)) k
        | none =>
          if (match rawL[j + 1]? with
              | some c => isAsciiLetter c || c = '#'
              | none => false) then
            if endF ∧ nn = j + 2 then .dataStop (pyDrop raw j) nn
            else .stopAt j
          else if j + 1 < nn then .dataAct "&" (j + 1)
          else .stopAt j
    | _ => .stopAt j

/-- The classification step of the `goahead` loop at position `i`: emit
any text run before the next `<`/`&`, stop at end of buffer, or dispatch
the construct. -/
def loopStep (endF : Bool) (raw : String) (i : Nat) : LoopAct :=
  let rawL := raw.data
  let nn := rawL.length
  if nn ≤ i then .stopAt i
  else
    let j :=
      match findIdxFrom (fun c => c = '<' || c = '&') rawL i with
      | some k => k
      | none => nn
    if i < j then .dataAct (pySlice raw i j) j
    else loopStepAt endF raw j

/-- The scanner/dispatcher.  `GoCall.loop` is the stdlib `goahead` over
the fixed local buffer `raw` (writing the leftover into `rawdata` when it
stops), driven by `loopStep`; `GoCall.dataEv` is `Parser.handle_data`
(parser.py:481); `GoCall.dataTail` is `handle_data`'s common tail after
the branch chain. -/
def goRun : Nat → GoCall → PState → Except PyErr PState
  | 0, c, st =>
    match c with
    | .loop _ raw i => Except.ok { st with rawdata := pyDrop raw i }
    | _ => Except.ok st
  | n + 1, .loop endF raw i, st =>
    match loopStep endF raw i with
    | .stopAt m => Except.ok { st with rawdata := pyDrop raw m }
    | .handler act k => do
      let st ← act st
      goRun n (.loop endF raw k) st
    | .dataAct sdata k => do
      let st ← goRun n (.dataEv sdata) st
      goRun n (.loop endF raw k) st
    | .dataStop sdata m => do
      let st ← goRun n (.dataEv sdata) st
      pure { st with rawdata := pyDrop raw m }
  | n + 1, .dataEv data, st =>
    if (match st.tagStack.getLast? with
        | some top => top.name == "script"
        | none => false) then
      Except.ok (addToTree (.text data) true st)
    else
      let ap : String × Bool :=
        match st.flatTree.getLast? with
        | some (.text s) => if pyEndsWith s "<" then ("<" ++ data, true) else (data, false)
        | _ => (data, false)
      let data1 := ap.1
      let added := ap.2
      if ((pyStrip data1 == "]" || pyStrip data1 == "]]") && !st.flatTree.isEmpty
          && (match st.flatTree.getLast? with
              | some (.special p c _) =>
                p == "![" || (p == "!--" && pyStartsWith (pyLower c) "[cdata")
              | _ => false)) then
        Except.ok st
      else if pyStartsWith data1 "<!--" then
        let d2 :=
          if data1 = "<!-->" ∨ data1 = "<!--->" then "<!---->"
          else if pyEndsWith data1 "--!>" then pyTake data1 (pyLen data1 - 4) ++ "-->"
          else data1 ++ "-->"
        goRun n (.dataTail d2 added) st
      else if pyStartsWith (pyLower data1) "<![cdata[" then
        if pyEndsWith data1 "]]>" then Except.error PyErr.assertionError
        else unknownDeclM (pyDrop data1 3) st
      else if pyStartsWith (pyLower data1) "<!doctype" then
        Except.error (PyErr.valueError quirksMsg)
      else if pyStartsWith data1 "</" then
        goRun n (.dataTail data1 added) st
      else if pyStartsWith data1 "<?" then
        Except.ok (addToTree (mkComment (pyDrop data1 1)) false (trimLastTextOne added st))
      else if ¬pyStartsWith data1 "<!" ∧ data1 ≠ "<" ∧ pyStartsWith data1 "<"
          ∧ pyEndsWith st.rawdata data1 then
        Except.ok (trimLastTextOne added st)
      else goRun n (.dataTail data1 added) st
  | n + 1, .dataTail data added, st =>
    let data2 := if added then pyDrop data 1 else data
    match st.flatTree.getLast? with
    | some (.text s) =>
      if pyEndsWith s "&#" ∧ pyInStr ";" data2 then
        let st2 :=
          { st with flatTree := st.flatTree.dropLast ++ [.text (pyTake s (pyLen s - 2))] }
        let loc := (pyFindChar data2 ';').getD 0
        let st3 := handleCharref (pyTake data2 loc) st2
        let start := pyLen st3.rawdata - pyLen data2 + loc + 1
        let st4 := { st3 with rawdata := pyDrop st3.rawdata start }
        goRun n (.loop true st4.rawdata 0) st4
      else Except.ok (addToTree (.text data2) false st)
    | _ => Except.ok (addToTree (.text data2) false st)

/-- Fuel sufficient for any buffer of this length (each fuel step consumes
input or dispatches once). -/
def goFuel (raw : String) : Nat := 8 * raw.data.length + 64

/-- The surrogate-in-input warning of `feed` (parser.py:352). -/
def surrogateWarnMsg : String :=
  "Surrogate character in given HTML, causing the spec defined surrogate-"
    ++ "in-input-stream parse error. This should not happen in normal usage"

/-- `Parser.feed(data, clean)` (parser.py:349).  The surrogate scan is
kept for fidelity, but Lean `Char` (like well-formed Unicode text) cannot
hold lone surrogates, so it never fires in the model. -/
def feedM (data : String) (clean : Bool) (st : PState) : Except PyErr PState := do
  let st :=
    if data.data.any (fun c =>
        (0xD800 ≤ c.val && c.val ≤ 0xDBFF) || (0xDC00 ≤ c.val && c.val ≤ 0xDFFF)) then
      { st with warnings := st.warnings ++ [surrogateWarnMsg] }
    else st
  let st ←
    if clean then
      goRun (goFuel data) (GoCall.loop true data 0) { pReset st with rawdata := data }
    else
      let st1 := { st with rawdata := st.rawdata ++ data }
      goRun (goFuel st1.rawdata) (GoCall.loop false st1.rawdata 0) st1
  let st :=
    { st with flatTree :=
        st.flatTree ++ st.badSelfClosing.reverse.map (fun (p : Element × Option Element) => Node.endTag p.1.name p.1) }
  let st := { st with badSelfClosing := [] }
  if 0 < pyLen (pyStrip st.rawdata) then pure (addToTree (.text st.rawdata) true st)
  else pure st

deriving instance DecidableEq for Except

/-- Feed one string into a fresh parser. -/
def runFeed1 (s : String) : Except PyErr PState := feedM s true st0

/-- Feed then stringify. -/
def feedOut (r : Except PyErr PState) : Except PyErr String := r.bind pStringify

/-! ## Counting views of the node sequence (for the serializer claims) -/

/-- Did the computation succeed? -/
def exceptOk : Except PyErr String → Bool
  | .ok _ => true
  | .error _ => false

/-- Number of `EndTag` nodes. -/
def endCount : List Node → Nat
  | [] => 0
  | .endTag _ _ :: rest => endCount rest + 1
  | _ :: rest => endCount rest

/-- Number of non-void `Element` nodes. -/
def openCount : List Node → Nat
  | [] => 0
  | .elem e :: rest => openCount rest + (if e.void then 0 else 1)
  | _ :: rest => openCount rest

/-- Pure counting replay of the serializer's verification stack: `d` is
the stack depth; an `EndTag` at depth zero is the only failure. -/
def noUnderflow : List Node → Nat → Bool
  | [], _ => true
  | .elem e :: rest, d => noUnderflow rest (d + (if e.void then 0 else 1))
  | .endTag _ _ :: rest, d => if d = 0 then false else noUnderflow rest (d - 1)
  | _ :: rest, d => noUnderflow rest d

/-! ## Claim C2: rendering of valueless attributes -/

set_option maxRecDepth 4096 in
/-- C2, counterexample: `Element.stringify` renders an attribute with no
value as `hidden=""` (name, `=`, and an empty value in quotes), NOT as the
bare name `hidden` that the claim states. -/
theorem C2_counterexample :
    Element.stringify (elementNew 0 "div" [("hidden", none)] false none)
      = "<div hidden=\"\">"
    ∧ Element.stringify (elementNew 0 "div" [("hidden", none)] false none)
      ≠ "<div hidden>" := by
  constructor
  · decide
  · decide

/-- `" ".join` of a list splits around any of its members. -/
theorem joinSpace_mem (l : List String) : ∀ x ∈ l,
    ∃ pre post, joinSpace l = pre ++ x ++ post := by
  induction l with
  | nil => intro x hx; cases hx
  | cons s rest ih =>
    intro x hx
    rcases List.mem_cons.mp hx with rfl | hx'
    · cases rest with
      | nil =>
        exact ⟨"", "", by simp [joinSpace, String.empty_append, String.append_empty]⟩
      | cons b t =>
        exact ⟨"", " " ++ joinSpace (b :: t),
          by simp [joinSpace, String.empty_append, String.append_assoc]⟩
    · obtain ⟨pre, post, hpp⟩ := ih x hx'
      cases rest with
      | nil => cases hx'
      | cons b t =>
        exact ⟨s ++ " " ++ pre, post, by simp [joinSpace, hpp, String.append_assoc]⟩

/-- C2, amended: for every Element, `Element.stringify()` renders each
attribute that has no value as the attribute name followed by `=` and an
empty value wrapped in the element's active quote style, and each attribute
with a value as the name, `=`, and the value wrapped in the active quote
style; instantiated both at an arbitrary non-empty quote override and at
the default double quote. -/
theorem C2_attr_rendering :
    (∀ (e : Element) (a : String) (ov : Option String), (a, ov) ∈ e.attrs →
        ∃ pre post, Element.stringify e =
          pre ++ (a ++ "=" ++ e.quote
            ++ (match ov with | none => "" | some v => v) ++ e.quote) ++ post) ∧
    (∀ (idv : Nat) (name a v q : String), q ≠ "" →
        Element.stringify (elementNew idv name [(a, none)] false (some q))
          = "<" ++ name ++ " " ++ a ++ "=" ++ q ++ q ++ ">"
        ∧ Element.stringify (elementNew idv name [(a, some v)] false (some q))
          = "<" ++ name ++ " " ++ a ++ "=" ++ q ++ v ++ q ++ ">") ∧
    (∀ (idv : Nat) (name a v : String),
        Element.stringify (elementNew idv name [(a, none)] false none)
          = "<" ++ name ++ " " ++ a ++ "=\"\"" ++ ">"
        ∧ Element.stringify (elementNew idv name [(a, some v)] false none)
          = "<" ++ name ++ " " ++ a ++ "=\"" ++ v ++ "\"" ++ ">") := by
  refine ⟨?_, ?_, ?_⟩
  · intro e a ov hmem
    have hmap : attrRender e.quote (a, ov) ∈ e.attrs.map (attrRender e.quote) :=
      List.mem_map_of_mem _ hmem
    obtain ⟨pre, post, hpp⟩ := joinSpace_mem _ _ hmap
    have hlen : ¬((e.attrs.map (attrRender e.quote)).length = 0) := by
      cases hE : e.attrs with
      | nil => rw [hE] at hmem; cases hmem
      | cons p t => simp [hE]
    refine ⟨"<" ++ e.name ++ " " ++ pre,
      post ++ ((if e.selfClosing then " /" else "") ++ ">"), ?_⟩
    simp only [Element.stringify, if_neg hlen, hpp, attrRender]
    cases ov <;> simp [String.append_assoc]
  · intro idv name a v q hq
    have hql : ¬(q.data.length = 0) := by
      rcases q with ⟨L⟩
      cases L with
      | nil => exact absurd (by decide) hq
      | cons c cs => simp
    constructor <;>
    · simp only [Element.stringify, elementNew, attrsDedup, List.foldl, List.any,
        List.map, List.length, attrRender, joinSpace, List.nil_append, if_neg hql]
      simp [String.append_assoc, String.append_empty]
  · intro idv name a v
    constructor <;>
    · simp only [Element.stringify, elementNew, attrsDedup, List.foldl, List.any,
        List.map, List.length, attrRender, joinSpace, List.nil_append]
      simp [String.append_assoc, String.append_empty]

/-! ## Claim C10: failed attribute delete is not atomic -/

/-- Adding a name to the changed set makes it a member. -/
theorem addChanged_mem (s : List String) (a : String) : a ∈ addChanged s a := by
  unfold addChanged
  split
  · next hc => exact List.mem_of_elem_eq_true hc
  · next hc => simp

/-- C10: deleting an absent attribute through the mutation surface raises
`KeyError`, but the name has nevertheless been added to the element's
changed-attribute set before the error is raised. -/
theorem C10_delitem_nonatomic (e : Element) (a : String)
    (h : lookupAttr e.attrs a = none) :
    (Element.delItem e a).1 = Except.error PyErr.keyError
    ∧ a ∈ (Element.delItem e a).2.attrsChanged := by
  constructor
  · simp [Element.delItem, h]
  · simp only [Element.delItem, h, Option.isSome_none, Bool.false_eq_true, if_false]
    exact addChanged_mem e.attrsChanged a

/-- C10, witness: concrete element with no `id` attribute. -/
theorem C10_delitem_nonatomic_witness :
    (Element.delItem (elementNew 0 "div" [] false none) "id").1
        = Except.error PyErr.keyError
    ∧ "id" ∈ (Element.delItem (elementNew 0 "div" [] false none) "id").2.attrsChanged :=
  C10_delitem_nonatomic (elementNew 0 "div" [] false none) "id" (by decide)

/-! ## Claim C5: numeric character references -/

/-- C5, counterexample: `&#-5;` parses as the integer `-5`, which is not
greater than `U+10FFFF`, not in a surrogate range and not zero, so by the
claim it should pass through unchanged; `handle_charref` nevertheless
replaces it with `&#xFFFD;` and warns (the code tests the full range
`0 <= num <= 0x10FFFF`, so negative parsed values are also replaced). -/
theorem C5_counterexample :
    charrefParse "-5" = some (-5)
    ∧ ¬((0x10FFFF : Int) < -5)
    ∧ ¬((0xD800 : Int) ≤ -5 ∧ (-5 : Int) ≤ 0xDFFF)
    ∧ (-5 : Int) ≠ 0
    ∧ handleCharref "-5" st0
        = addToTree (.text "&#xFFFD;") true
            { st0 with warnings := st0.warnings ++ [warnOutsideRange] }
    ∧ handleCharref "-5" st0 ≠ addToTree (.text ("&#" ++ "-5" ++ ";")) true st0 := by
  refine ⟨by decide, by decide, by decide, by decide, by decide, by decide⟩

/-- C5, amended: a numeric character reference that does not parse as a
decimal or hex integer is emitted literally as `&#name;` with no warning;
a parsed value outside the valid Unicode range `0..U+10FFFF` (negative or
greater than `U+10FFFF`), inside either UTF-16 surrogate range, or equal
to zero is replaced by `&#xFFFD;` with a distinct non-fatal warning per
case; every other parsed code point passes through unchanged. -/
theorem C5_charref_cases (st : PState) (name : String) (n : Int) :
    (charrefParse name = none →
      handleCharref name st = addToTree (.text ("&#" ++ name ++ ";")) true st)
    ∧ (charrefParse name = some n → (n < 0 ∨ 0x10FFFF < n) →
      handleCharref name st =
        addToTree (.text "&#xFFFD;") true
          { st with warnings := st.warnings ++ [warnOutsideRange] })
    ∧ (charrefParse name = some n → (0xD800 ≤ n ∧ n ≤ 0xDFFF) →
      handleCharref name st =
        addToTree (.text "&#xFFFD;") true
          { st with warnings := st.warnings ++ [warnSurrogateRef] })
    ∧ (charrefParse name = some n → n = 0 →
      handleCharref name st =
        addToTree (.text "&#xFFFD;") true
          { st with warnings := st.warnings ++ [warnNullRef] })
    ∧ (charrefParse name = some n → 0 < n → n ≤ 0x10FFFF →
        ¬(0xD800 ≤ n ∧ n ≤ 0xDFFF) →
      handleCharref name st = addToTree (.text ("&#" ++ name ++ ";")) true st) := by
  refine ⟨?_, ?_, ?_, ?_, ?_⟩
  · intro h
    simp [handleCharref, h]
  · intro h ho
    simp only [handleCharref, h, unicodeRange, surrogateRange]
    rw [if_pos (by omega)]
  · intro h hs
    simp only [handleCharref, h, unicodeRange, surrogateRange]
    rw [if_neg (by omega), if_pos (by omega)]
  · intro h h0
    subst h0
    simp only [handleCharref, h, unicodeRange, surrogateRange]
    rw [if_neg (by omega), if_neg (by omega)]
    simp
  · intro h h1 h2 h3
    simp only [handleCharref, h, unicodeRange, surrogateRange]
    rw [if_neg (by omega), if_neg (by omega),
      if_neg (by omega)]

/-- C5, witness: the five cases at `&#qux;` (unparseable), `&#x110000;`
(out of range), `&#xdca0;` (surrogate), `&#x00;` (null) and `&#65;`
(valid). -/
theorem C5_charref_cases_witness :
    handleCharref "qux" st0 = addToTree (.text ("&#" ++ "qux" ++ ";")) true st0
    ∧ handleCharref "x110000" st0
        = addToTree (.text "&#xFFFD;") true
            { st0 with warnings := st0.warnings ++ [warnOutsideRange] }
    ∧ handleCharref "xdca0" st0
        = addToTree (.text "&#xFFFD;") true
            { st0 with warnings := st0.warnings ++ [warnSurrogateRef] }
    ∧ handleCharref "x00" st0
        = addToTree (.text "&#xFFFD;") true
            { st0 with warnings := st0.warnings ++ [warnNullRef] }
    ∧ handleCharref "65" st0 = addToTree (.text ("&#" ++ "65" ++ ";")) true st0 :=
  ⟨(C5_charref_cases st0 "qux" 0).1 (by decide),
   (C5_charref_cases st0 "x110000" 1114112).2.1 (by decide) (Or.inr (by decide)),
   (C5_charref_cases st0 "xdca0" 56480).2.2.1 (by decide) (by decide),
   (C5_charref_cases st0 "x00" 0).2.2.2.1 (by decide) rfl,
   (C5_charref_cases st0 "65" 65).2.2.2.2 (by decide) (by decide) (by decide)
     (by decide)⟩

/-! ## Claim C6: named character references -/

theorem push_eq_append_char (s : String) (c : Char) : s.push c = s ++ ⟨[c]⟩ := by
  cases s
  rfl

/-- The source's growing-prefix loop equals the shortest-first prefix
search. -/
theorem entityLoop_eq_find (table : List String) :
    ∀ (cs : List Char) (actual : String),
      entityLoop table actual cs =
        ((List.range cs.length).map
          (fun k => (actual ++ (⟨cs.take (k + 1)⟩ : String),
            (⟨cs.drop (k + 1)⟩ : String)))).find?
          (fun p => table.contains (p.1 ++ ";"))
  | [], actual => by simp [entityLoop]
  | c :: rs, actual => by
    have hIH := entityLoop_eq_find table rs (actual.push c)
    rw [entityLoop]
    simp only [List.length_cons, List.range_succ_eq_map, List.map_cons, List.map_map]
    have htake : ∀ k : Nat, (c :: rs).take (k + 1) = c :: rs.take k := by
      intro k
      rfl
    have hdrop : ∀ k : Nat, (c :: rs).drop (k + 1) = rs.drop k := by
      intro k
      rfl
    have hfun :
        ((fun k => (actual ++ (⟨(c :: rs).take (k + 1)⟩ : String),
            (⟨(c :: rs).drop (k + 1)⟩ : String))) ∘ (· + 1))
          = (fun k => (actual.push c ++ (⟨rs.take (k + 1)⟩ : String),
            (⟨rs.drop (k + 1)⟩ : String))) := by
      funext k
      simp only [Function.comp, htake, hdrop, push_eq_append_char,
        String.append_assoc]
      rfl
    rw [hfun]
    by_cases h : table.contains (actual.push c ++ ";") = true
    · rw [if_pos h]
      rw [List.find?_cons_of_pos]
      · rw [push_eq_append_char]
        rfl
      · simpa [push_eq_append_char, htake] using h
    · rw [if_neg h]
      rw [List.find?_cons_of_neg]
      · exact hIH
      · simpa [push_eq_append_char, htake] using h

/-- C6, amended: named-reference resolution is by shortest-match: the
nonempty prefixes of the candidate are tried from length 1 upward, and the
first prefix whose semicolon-terminated form is in the named character
reference table is resolved and re-emitted together with the unconsumed
remainder; a candidate with no matching prefix is demoted to the literal
text `&amp;name&semi;`. -/
theorem C6_shortest_match (name : String) (st : PState) :
    handleEntityref name st =
      match shortestEntityMatch html5Entities name with
      | some (p, r) => addToTree (.text ("&" ++ p ++ ";" ++ r)) true st
      | none => addToTree (.text ("&amp;" ++ name ++ "&semi;")) true st := by
  have hloop : entityLoop html5Entities "" name.data
      = shortestEntityMatch html5Entities name := by
    rw [entityLoop_eq_find]
    rfl
  unfold handleEntityref
  rw [hloop]

set_option maxRecDepth 8192 in
/-- C6, counterexample: on the candidate `notin` (with `not;` and `notin;`
both in the table) the code resolves the SHORTEST prefix, emitting
`&not;in`, whereas the claim's greedy longest-match (which would pick
`notin;`) predicts `&notin;`. -/
theorem C6_counterexample :
    (handleEntityref "notin" st0).flatTree = [Node.text "&not;in"]
    ∧ longestEntityMatch html5Entities "notin" = some ("notin", "")
    ∧ ("&not;in" : String) ≠ "&notin;" := by
  refine ⟨by decide, by decide, by decide⟩

/-! ## Claim C1: what the serializer actually validates -/

/-- The serializer's success is exactly the no-underflow condition on the
verification stack; the accumulator and stack contents are irrelevant. -/
theorem stringifyGo_ok_eq (nodes : List Node) :
    ∀ (stack : List Element) (acc : String),
      exceptOk (stringifyGo nodes stack acc) = noUnderflow nodes stack.length := by
  induction nodes with
  | nil => intro stack acc; rfl
  | cons n rest ih =>
    intro stack acc
    cases n with
    | elem e =>
      by_cases hv : e.void = true
      · simp [stringifyGo, noUnderflow, hv, ih]
      · simp only [Bool.not_eq_true] at hv
        simp [stringifyGo, noUnderflow, hv, ih]
    | endTag nm s =>
      cases hs : stack.getLast? with
      | none =>
        have hstack : stack = [] := List.getLast?_eq_none_iff.mp hs
        subst hstack
        simp [stringifyGo, noUnderflow, exceptOk]
      | some x =>
        have hne : stack ≠ [] := by
          intro hc
          subst hc
          simp [List.getLast?] at hs
        have hlen : stack.length ≠ 0 := by
          simpa [List.length_eq_zero] using hne
        simp [stringifyGo, noUnderflow, hs, ih, List.length_dropLast, hlen]
    | special p c s => simp [stringifyGo, noUnderflow, ih]
    | text s => simp [stringifyGo, noUnderflow, ih]

/-- No-underflow is the prefix-count condition: on every prefix the number
of EndTags stays within the depth budget plus the number of non-void
Elements. -/
theorem noUnderflow_iff (nodes : List Node) :
    ∀ d, noUnderflow nodes d = true ↔
      ∀ k, endCount (nodes.take k) ≤ d + openCount (nodes.take k) := by
  induction nodes with
  | nil =>
    intro d
    simp [noUnderflow, endCount]
  | cons n rest ih =>
    intro d
    cases n with
    | elem e =>
      rw [show noUnderflow (Node.elem e :: rest) d
          = noUnderflow rest (d + (if e.void then 0 else 1)) from rfl]
      rw [ih]
      constructor
      · intro h k
        cases k with
        | zero => simp [endCount]
        | succ k =>
          have := h k
          by_cases hv : e.void = true <;>
            simp [List.take_succ_cons, endCount, openCount, hv] at this ⊢ <;> omega
      · intro h k
        have := h (k + 1)
        by_cases hv : e.void = true <;>
          simp [List.take_succ_cons, endCount, openCount, hv] at this ⊢ <;> omega
    | endTag nm s =>
      rw [show noUnderflow (Node.endTag nm s :: rest) d
          = (if d = 0 then false else noUnderflow rest (d - 1)) from rfl]
      by_cases hd : d = 0
      · subst hd
        simp only [if_pos rfl]
        constructor
        · intro h
          exact absurd h (by simp)
        · intro h
          have := h 1
          simp [endCount, openCount] at this
      · obtain ⟨m, rfl⟩ := Nat.exists_eq_succ_of_ne_zero hd
        simp only [Nat.succ_ne_zero, if_false, Nat.succ_sub_one]
        rw [ih]
        constructor
        · intro h k
          cases k with
          | zero => simp [endCount]
          | succ k =>
            have := h k
            simp [List.take_succ_cons, endCount, openCount] at this ⊢
            omega
        · intro h k
          have := h (k + 1)
          simp [List.take_succ_cons, endCount, openCount] at this ⊢
          omega
    | special p c s =>
      rw [show noUnderflow (Node.special p c s :: rest) d = noUnderflow rest d from rfl]
      rw [ih]
      constructor
      · intro h k
        cases k with
        | zero => simp [endCount]
        | succ k =>
          have := h k
          simpa [List.take_succ_cons, endCount, openCount] using this
      · intro h k
        have := h (k + 1)
        simpa [List.take_succ_cons, endCount, openCount] using this
    | text s =>
      rw [show noUnderflow (Node.text s :: rest) d = noUnderflow rest d from rfl]
      rw [ih]
      constructor
      · intro h k
        cases k with
        | zero => simp [endCount]
        | succ k =>
          have := h k
          simpa [List.take_succ_cons, endCount, openCount] using this
      · intro h k
        have := h (k + 1)
        simpa [List.take_succ_cons, endCount, openCount] using this

set_option maxRecDepth 100000 in
/-- C1, counterexample: `feed("<div>")` builds a sequence whose only node
is a non-void StartTag with no corresponding EndTag, yet `stringify()`
completes successfully with `"<div>"` instead of failing. -/
theorem C1_counterexample :
    (runFeed1 "<div>").map PState.flatTree
      = Except.ok [Node.elem ⟨0, "div", [], [], false, "\"", false⟩]
    ∧ feedOut (runFeed1 "<div>") = Except.ok "<div>" := by
  exact ⟨by decide, by decide⟩

/-- C1, amended: `stringify()` raises only when it reaches an EndTag while
its verification stack is empty — that is, it succeeds exactly when every
prefix of the node sequence carries no more EndTags than non-void
StartTags.  No name or back-reference validation is performed, and
unclosed non-void StartTags do not cause failure. -/
theorem C1_stringify_succeeds_iff (st : PState) :
    exceptOk (pStringify st) = true ↔
      ∀ k, endCount (st.flatTree.take k) ≤ openCount (st.flatTree.take k) := by
  rw [show pStringify st = stringifyGo st.flatTree [] "" from rfl]
  rw [stringifyGo_ok_eq st.flatTree [] ""]
  simpa using noUnderflow_iff st.flatTree 0

/-- C1, witness: the characterization applied to a one-node state with an
unmatched non-void StartTag. -/
theorem C1_stringify_succeeds_iff_witness :
    exceptOk (pStringify { st0 with
      flatTree := [Node.elem ⟨0, "div", [], [], false, "\"", false⟩] }) = true :=
  (C1_stringify_succeeds_iff { st0 with
      flatTree := [Node.elem ⟨0, "div", [], [], false, "\"", false⟩] }).mpr
    (by
      intro k
      cases k <;> simp [endCount, openCount])

/-! ## Claim C3: bad self-closing tags -/

set_option maxRecDepth 400000 in
/-- C3: a non-void HTML element start tag marked self-closing outside
foreign content is recorded as a normal open tag (not pushed, queued with
the enclosing element), and its deferred synthetic EndTag is appended at
end-of-feed (first conjunct: the spec's example) or emitted immediately
before the real end tag closing its recorded enclosing element (second
conjunct); the third conjunct is the general queueing behavior of the
start-tag handler. -/
theorem C3_bad_self_closing :
    (feedOut (runFeed1 "<div/><span></span><span></span>")
        = Except.ok "<div><span></span><span></span></div>")
    ∧ (feedOut (runFeed1 "<span><div/></span>") = Except.ok "<span><div></div></span>")
    ∧ (∀ (st : PState) (name : String) (attrs : List (String × Option String))
        (text : Option String),
        st.inXml = false →
        name ∉ foreignContentStartTags →
        isVoid name = false →
        name ≠ "script" → name ≠ "link" →
        startTagM name attrs true text st =
          Except.ok { st with
            seenContentBeforePreamble := true
            nextId := st.nextId + 1
            badSelfClosing := st.badSelfClosing ++
              [(elementNew st.nextId name attrs false (some st.quote), st.tagStack.getLast?)]
            flatTree := st.flatTree ++
              [Node.elem (elementNew st.nextId name attrs false (some st.quote))] }) := by
  refine ⟨by decide, by decide, ?_⟩
  intro st name attrs text hx hf hv hs hl
  simp [startTagM, startTagRescan, elementNew, hx, hf, hv, hs, hl]
  rfl

/-- C3, witness for the general conjunct: a `<p/>` inside an open `<div>`
is queued with that `div` as its recorded enclosing element. -/
theorem C3_bad_self_closing_witness :
    startTagM "p" [] true (some "<p/>")
        { st0 with tagStack := [⟨5, "div", [], [], false, "\"", false⟩] } =
      Except.ok { st0 with
        tagStack := [⟨5, "div", [], [], false, "\"", false⟩]
        seenContentBeforePreamble := true
        nextId := 1
        badSelfClosing :=
          [(elementNew 0 "p" [] false (some ""), some ⟨5, "div", [], [], false, "\"", false⟩)]
        flatTree := [Node.elem (elementNew 0 "p" [] false (some ""))] } := by
  have h := (C3_bad_self_closing.2.2
    { st0 with tagStack := [⟨5, "div", [], [], false, "\"", false⟩] }
    "p" [] (some "<p/>") (by decide) (by decide) (by decide) (by decide) (by decide))
  simpa using h

/-! ## Claim C8: chunked feeding -/

set_option maxRecDepth 400000 in
/-- C8, counterexample: chunked and single-shot feeding disagree in
general, because `feed` flushes the pending bad-self-closing end tags at
the end of every call: `a = "<p/>"`, `b = "<span></span>"` yields
`"<p></p><span></span>"` chunked but `"<p><span></span></p>"` in one
shot. -/
theorem C8_counterexample :
    feedOut ((feedM "<p/>" true st0).bind (feedM "<span></span>" false))
      = Except.ok "<p></p><span></span>"
    ∧ feedOut (runFeed1 "<p/><span></span>") = Except.ok "<p><span></span></p>"
    ∧ ("<p></p><span></span>" : String) ≠ "<p><span></span></p>" := by
  exact ⟨by decide, by decide, by decide⟩

set_option maxRecDepth 400000 in
/-- C8, amended: the chunked/single-shot identity does not hold for every
pair of strings, but it does hold for the spec's instance:
`feed("<div>", clean=True); feed("</div>", clean=False); stringify()`
yields `"<div></div>"`, identical to single-shot feeding. -/
theorem C8_chunked_example :
    feedOut ((feedM "<div>" true st0).bind (feedM "</div>" false))
      = Except.ok "<div></div>"
    ∧ feedOut ((feedM "<div>" true st0).bind (feedM "</div>" false))
      = feedOut (runFeed1 "<div></div>") := by
  exact ⟨by decide, by decide⟩

/-! ## Claim C9: feed on `"<svg/></p>"` crashes -/

set_option maxRecDepth 400000 in
/-- C9: on the input `"<svg/></p>"` the self-closed `<svg/>` leaves the
parser in foreign-content mode with an empty open-element stack, and the
following end tag evaluates `self.__tag_stack[-1]`, raising `IndexError`
(an unhandled crash, not one of the designed fatal errors) — contradicting
the claim that `feed` never crashes. -/
theorem C9_feed_crash :
    runFeed1 "<svg/></p>" = Except.error PyErr.indexError := by
  decide

/-! ## Claim C4: DOCTYPE validation -/

set_option maxRecDepth 400000 in
/-- C4: a DOCTYPE whose name is not `html` (or that has no tokens), whose
keyword is neither PUBLIC nor SYSTEM, or whose identifier is missing or
unquoted raises the fatal quirks-mode error; `<!DOCTYPE html>`, correctly
quoted PUBLIC/SYSTEM identifiers and `SYSTEM "about:legacy-compat"` are
accepted, and extra trailing tokens after a valid system identifier are
dropped rather than fatal. -/
theorem C4_doctype (st : PState) (decl : String)
    (hpre : st.seenContentBeforePreamble = false) :
    (declParts decl = [] → handleDecl decl st = Except.error (PyErr.valueError quirksMsg))
    ∧ (∀ p0 rest, declParts decl = p0 :: rest → pyLower p0 ≠ "html" →
        handleDecl decl st = Except.error (PyErr.valueError quirksMsg))
    ∧ (∀ p0 p1 rest, declParts decl = p0 :: p1 :: rest → pyLower p0 = "html" →
        pyStartsWith (pyUpper p1) "PUBLIC" = false →
        pyStartsWith (pyUpper p1) "SYSTEM" = false →
        handleDecl decl st = Except.error (PyErr.valueError quirksMsg))
    ∧ (∀ p0 kw, declParts decl = [p0, kw] → pyLower p0 = "html" →
        (kw = "PUBLIC" ∨ kw = "SYSTEM") →
        handleDecl decl st = Except.error (PyErr.valueError quirksMsg))
    ∧ (∀ p0 kw idt rest, declParts decl = p0 :: kw :: idt :: rest → pyLower p0 = "html" →
        (kw = "PUBLIC" ∨ kw = "SYSTEM") →
        pyStartsWith idt "'" = false → pyStartsWith idt "\"" = false →
        handleDecl decl st = Except.error (PyErr.valueError quirksMsg))
    ∧ feedOut (runFeed1 "<!DOCTYPE html>") = Except.ok "<!DOCTYPE html>"
    ∧ feedOut (runFeed1 "<!DOCTYPE html PUBLIC 'foo'>")
        = Except.ok "<!DOCTYPE html PUBLIC 'foo'>"
    ∧ feedOut (runFeed1 "<!DOCTYPE html SYSTEM 'about:legacy-compat'>")
        = Except.ok "<!DOCTYPE html SYSTEM 'about:legacy-compat'>"
    ∧ feedOut (runFeed1 "<!DOCTYPE html SYSTEM \"foo\" bar>")
        = Except.ok "<!DOCTYPE html SYSTEM \"foo\">"
    ∧ runFeed1 "<!DOCTYPE html PUBLIC>" = Except.error (PyErr.valueError quirksMsg) := by
  refine ⟨?_, ?_, ?_, ?_, ?_, by decide, by decide, by decide, by decide, by decide⟩
  · intro h
    simp [handleDecl, handleDeclPure, hpre, h]
  · intro p0 rest h hl
    simp [handleDecl, handleDeclPure, hpre, h, hl]
  · intro p0 p1 rest h hp0 hP hS
    simp [handleDecl, handleDeclPure, hpre, h, hp0, hP, hS, pyGet, Bind.bind, Except.bind]
  · intro p0 kw h hp0 hk
    have e1 : pyStartsWith (pyUpper "PUBLIC") "PUBLIC" = true := by decide
    have e2 : pyStartsWith (pyUpper "SYSTEM") "PUBLIC" = false := by decide
    have e3 : pyStartsWith (pyUpper "SYSTEM") "SYSTEM" = true := by decide
    have e4 : ¬(6 < pyLen "PUBLIC") := by decide
    have e5 : ¬(6 < pyLen "SYSTEM") := by decide
    rcases hk with rfl | rfl <;>
      simp [handleDecl, handleDeclPure, hpre, h, hp0, e1, e2, e3, e4, e5, pyGet, Bind.bind,
        Except.bind]
  · intro p0 kw idt rest h hp0 hk hq1 hq2
    have e1 : pyStartsWith (pyUpper "PUBLIC") "PUBLIC" = true := by decide
    have e2 : pyStartsWith (pyUpper "SYSTEM") "PUBLIC" = false := by decide
    have e3 : pyStartsWith (pyUpper "SYSTEM") "SYSTEM" = true := by decide
    have e4 : ¬(6 < pyLen "PUBLIC") := by decide
    have e5 : ¬(6 < pyLen "SYSTEM") := by decide
    rcases hk with rfl | rfl <;>
      simp [handleDecl, handleDeclPure, hpre, h, hp0, e1, e2, e3, e4, e5, hq1, hq2, pyGet,
        Bind.bind, Except.bind]

/-- C4, witness: the five rejection families at concrete declarations
(no tokens, name not html, keyword TEST, missing identifier, unquoted
identifier). -/
theorem C4_doctype_witness :
    handleDecl "DOCTYPE" st0 = Except.error (PyErr.valueError quirksMsg)
    ∧ handleDecl "DOCTYPE foo" st0 = Except.error (PyErr.valueError quirksMsg)
    ∧ handleDecl "DOCTYPE html TEST" st0 = Except.error (PyErr.valueError quirksMsg)
    ∧ handleDecl "DOCTYPE html PUBLIC" st0 = Except.error (PyErr.valueError quirksMsg)
    ∧ handleDecl "DOCTYPE html SYSTEM foo'" st0 = Except.error (PyErr.valueError quirksMsg) :=
  ⟨(C4_doctype st0 "DOCTYPE" rfl).1 (by decide),
   (C4_doctype st0 "DOCTYPE foo" rfl).2.1 "foo" [] (by decide) (by decide),
   (C4_doctype st0 "DOCTYPE html TEST" rfl).2.2.1 "html" "TEST" [] (by decide) (by decide)
     (by decide) (by decide),
   (C4_doctype st0 "DOCTYPE html PUBLIC" rfl).2.2.2.1 "html" "PUBLIC" (by decide) (by decide)
     (Or.inl rfl),
   (C4_doctype st0 "DOCTYPE html SYSTEM foo'" rfl).2.2.2.2.1 "html" "SYSTEM" "foo'" []
     (by decide) (by decide) (Or.inr rfl) (by decide) (by decide)⟩

/-! ## Claim C7: quote-style detection

The parser's `__quote` field has exactly one write site outside the
constructor: the foreign-content re-scan inside `__start_tag`, guarded by
`len(self.__quote) == 0`.  The lemmas below show every handler preserves
the field (the start-tag handler preserves it whenever it is non-empty,
and unconditionally outside foreign content), the scanner preserves it by
induction, and a concrete run shows detection inside foreign content. -/

theorem addToTree_quote (d : Node) (b : Bool) (st : PState) :
    (addToTree d b st).quote = st.quote := by
  simp only [addToTree]
  repeat' split
  all_goals rfl

theorem trimLastTextOne_quote (b : Bool) (st : PState) :
    (trimLastTextOne b st).quote = st.quote := by
  simp only [trimLastTextOne]
  repeat' split
  all_goals rfl

theorem handleCharref_quote (nm : String) (st : PState) :
    (handleCharref nm st).quote = st.quote := by
  simp only [handleCharref]
  repeat' split
  all_goals simp [addToTree_quote]

theorem handleEntityref_quote (nm : String) (st : PState) :
    (handleEntityref nm st).quote = st.quote := by
  simp only [handleEntityref]
  repeat' split
  all_goals simp [addToTree_quote]

theorem handleCommentM_quote (d : String) (st : PState) :
    (handleCommentM d st).quote = st.quote := by
  simp only [handleCommentM]
  repeat' split
  all_goals simp [addToTree_quote]

theorem handlePiM_quote (d : String) (st : PState) :
    (handlePiM d st).quote = st.quote := by
  simp [handlePiM, addToTree_quote]

theorem unknownDeclM_quote {d : String} {st st' : PState}
    (h : unknownDeclM d st = Except.ok st') : st'.quote = st.quote := by
  simp only [unknownDeclM] at h
  repeat' split at h
  all_goals first
    | (cases h; simp [addToTree_quote])
    | simp at h

set_option maxHeartbeats 1000000 in
theorem handleEndtagM_quote {t : String} {st st' : PState}
    (h : handleEndtagM t st = Except.ok st') : st'.quote = st.quote := by
  simp only [handleEndtagM, Bind.bind, Except.bind, pure, Except.pure] at h
  repeat' split at h
  all_goals first
    | (cases h; rfl)
    | simp at h

theorem handleDecl_quote {d : String} {st st' : PState}
    (h : handleDecl d st = Except.ok st') : st'.quote = st.quote := by
  simp only [handleDecl] at h
  repeat' split at h
  all_goals first
    | (cases h; simp [addToTree_quote])
    | simp at h

theorem xmlAttrLoop_quote_ne :
    ∀ (bits : List String) (i : Nat) (attrs : List (String × Option String))
      (q : String), q ≠ "" →
      ∀ r, xmlAttrLoop bits i attrs q = Except.ok r → r.2 = q := by
  intro bits
  induction bits with
  | nil =>
    intro i attrs q hq r h
    simp only [xmlAttrLoop] at h
    cases h
    rfl
  | cons b rest ih =>
    intro i attrs q hq r h
    have hlen : ¬(q.data.length = 0) := by
      intro h0
      exact hq (by cases q with | mk l => cases l <;> simp_all)
    simp only [xmlAttrLoop, Bind.bind, Except.bind, pure, Except.pure] at h
    repeat' split at h
    all_goals first
      | (exact ih _ _ _ hq _ h)
      | simp_all

set_option maxHeartbeats 2000000 in
theorem startTagRescan_quote_ne {x : Bool} {q : String} {nm : String}
    {attrs : List (String × Option String)} {tx : Option String}
    {r : String × List (String × Option String) × String}
    (hq : q ≠ "") (h : startTagRescan x q nm attrs tx = Except.ok r) :
    r.2.2 = q := by
  unfold startTagRescan at h
  simp only [Bind.bind, Except.bind, pure, Except.pure, pyGet] at h
  repeat' split at h
  all_goals first
    | (cases h; rfl)
    | (cases h
       exact xmlAttrLoop_quote_ne _ _ _ _ hq _ (by assumption))
    | simp at h

theorem startTagRescan_quote_noXml {q : String} {nm : String}
    {attrs : List (String × Option String)} {tx : Option String}
    {r : String × List (String × Option String) × String}
    (h : startTagRescan false q nm attrs tx = Except.ok r) :
    r.2.2 = q := by
  simp only [startTagRescan, if_neg, Bool.false_eq_true, not_false_iff] at h
  cases h
  rfl

set_option maxHeartbeats 2000000 in
theorem startTagM_quote_ne {nm : String} {attrs : List (String × Option String)}
    {sc : Bool} {tx : Option String} {st st' : PState}
    (hq : st.quote ≠ "")
    (h : startTagM nm attrs sc tx st = Except.ok st') : st'.quote = st.quote := by
  by_cases hc : foreignContentStartTags.contains nm = true <;>
    (simp only [startTagM, Bind.bind, Except.bind, pure, Except.pure, hc, if_true,
       Bool.false_eq_true, if_false] at h
     repeat' split at h)
  all_goals first
    | (cases h
       exact startTagRescan_quote_ne hq (by assumption))
    | simp at h

set_option maxHeartbeats 2000000 in
theorem startTagM_quote_noXml {nm : String} {attrs : List (String × Option String)}
    {sc : Bool} {tx : Option String} {st st' : PState}
    (hx : st.inXml = false) (hf : nm ∉ foreignContentStartTags)
    (h : startTagM nm attrs sc tx st = Except.ok st') : st'.quote = st.quote := by
  have hc : foreignContentStartTags.contains nm = false := by
    simpa using hf
  simp only [startTagM, Bind.bind, Except.bind, pure, Except.pure, hc,
    Bool.false_eq_true, if_false, hx] at h
  repeat' split at h
  all_goals first
    | (cases h
       exact startTagRescan_quote_noXml (by assumption))
    | simp at h

/-- The recovery action is never a handler dispatch. -/
theorem recovAct_ne_handler (endF : Bool) (raw : String) (j : Nat)
    {act : PState → Except PyErr PState} {k : Nat} :
    recovAct endF raw j ≠ LoopAct.handler act k := by
  simp only [recovAct]
  repeat' split
  all_goals simp

set_option maxHeartbeats 2000000 in
/-- Every handler dispatched by the construct dispatch keeps a non-empty
quote style unchanged. -/
theorem loopStepAt_handler_quote {endF : Bool} {raw : String} {j : Nat}
    {act : PState → Except PyErr PState} {k : Nat}
    (hstep : loopStepAt endF raw j = LoopAct.handler act k) :
    ∀ st st', st.quote ≠ "" → act st = Except.ok st' → st'.quote = st.quote := by
  intro st st' hq ha
  simp only [loopStepAt] at hstep
  repeat' split at hstep
  all_goals first
    | (exact absurd hstep (recovAct_ne_handler _ _ _))
    | (cases hstep
       first
         | exact startTagM_quote_ne hq ha
         | exact handleEndtagM_quote ha
         | exact handleDecl_quote ha
         | exact unknownDeclM_quote ha
         | (cases ha; rfl)
         | (cases ha
            simp [handleCharref_quote, handleEntityref_quote, handleCommentM_quote,
              handlePiM_quote]))
    | simp at hstep

/-- Every handler dispatched by the scanner's classification step keeps a
non-empty quote style unchanged. -/
theorem loopStep_handler_quote {endF : Bool} {raw : String} {i : Nat}
    {act : PState → Except PyErr PState} {k : Nat}
    (hstep : loopStep endF raw i = LoopAct.handler act k) :
    ∀ st st', st.quote ≠ "" → act st = Except.ok st' → st'.quote = st.quote := by
  intro st st' hq ha
  simp only [loopStep] at hstep
  repeat' split at hstep
  all_goals first
    | (exact loopStepAt_handler_quote hstep st st' hq ha)
    | simp at hstep

set_option maxHeartbeats 2000000 in
theorem goRun_quote_ne :
    ∀ (fuel : Nat) (c : GoCall) (st st' : PState), st.quote ≠ "" →
      goRun fuel c st = Except.ok st' → st'.quote = st.quote := by
  intro fuel
  induction fuel with
  | zero =>
    intro c st st' hq h
    cases c <;> simp only [goRun] at h <;> (cases h; rfl)
  | succ n ih =>
    intro c st st' hq h
    cases c with
    | loop endF raw i =>
      simp only [goRun, Bind.bind, Except.bind, pure, Except.pure] at h
      cases hstep : loopStep endF raw i with
      | stopAt m =>
        rw [hstep] at h
        cases h
        rfl
      | handler act k =>
        rw [hstep] at h
        simp only [] at h
        cases ha : act st with
        | error e => rw [ha] at h; simp at h
        | ok stM =>
          rw [ha] at h
          simp only [] at h
          have hQ := loopStep_handler_quote hstep st stM hq ha
          exact (ih _ _ _ (by rw [hQ]; exact hq) h).trans hQ
      | dataAct sdata k =>
        rw [hstep] at h
        simp only [] at h
        cases hd : goRun n (GoCall.dataEv sdata) st with
        | error e => rw [hd] at h; simp at h
        | ok stM =>
          rw [hd] at h
          simp only [] at h
          have hQ := ih _ _ _ hq hd
          exact (ih _ _ _ (by rw [hQ]; exact hq) h).trans hQ
      | dataStop sdata m =>
        rw [hstep] at h
        simp only [] at h
        cases hd : goRun n (GoCall.dataEv sdata) st with
        | error e => rw [hd] at h; simp at h
        | ok stM =>
          rw [hd] at h
          simp only [] at h
          cases h
          show stM.quote = st.quote
          exact ih _ _ _ hq hd
    | dataEv data =>
      simp only [goRun, Bind.bind, Except.bind, pure, Except.pure] at h
      repeat' split at h
      all_goals first
        | (cases h; simp [addToTree_quote, trimLastTextOne_quote])
        | (exact unknownDeclM_quote h)
        | (exact ih _ _ _ hq h)
        | simp at h
    | dataTail data added =>
      simp only [goRun, Bind.bind, Except.bind, pure, Except.pure] at h
      repeat' split at h
      all_goals first
        | (cases h; simp [addToTree_quote, trimLastTextOne_quote])
        | (exact (ih _ _ _
            (by simp only [handleCharref_quote]; exact hq) h).trans
            (by simp only [handleCharref_quote]))

set_option maxHeartbeats 1000000 in
theorem feedM_quote_ne {data : String} {clean : Bool} {st st' : PState}
    (hq : st.quote ≠ "") (h : feedM data clean st = Except.ok st') :
    st'.quote = st.quote := by
  simp only [feedM, Bind.bind, Except.bind, pure, Except.pure] at h
  repeat' split at h
  all_goals first
    | (cases h
       rename _ = _ => heq
       split at heq
       all_goals
         (have hQ := goRun_quote_ne _ _ _ _ (by exact hq) heq
          simpa [addToTree_quote, pReset] using hQ))
    | simp at h

set_option maxRecDepth 400000 in
/-- C7 counterexample: the quote character is not detected "anywhere in the
document": a single-quoted attribute value outside foreign content leaves the
quote style at its default, and the whole document serializes with double
quotes, not with the single quotes the claim predicts for the subsequently
constructed span element. -/
theorem C7_counterexample :
    feedOut (runFeed1 "<div id='a'><span id='b'></span></div>") =
      Except.ok "<div id=\"a\"><span id=\"b\"></span></div>" ∧
    feedOut (runFeed1 "<div id='a'><span id='b'></span></div>") ≠
      Except.ok "<div id='a'><span id='b'></span></div>" := by
  constructor <;> decide

set_option maxRecDepth 400000 in
/-- C7 (amended): (1) a non-empty quote override is fixed: feeding never
changes it; (2) there is no auto-detection outside foreign content: a start
tag handled with `in_xml` false whose name does not enter foreign content
leaves the quote style unchanged; (3) a constructed Element's quote style is
the supplied non-empty override, with the default double quote when the
override is absent or empty; (4) inside foreign content the first observed
quote character does become the style of subsequently constructed elements:
a single-quoted attribute value in an svg block makes the later div element
serialize single-quoted. -/
theorem C7_quote :
    (∀ (data : String) (clean : Bool) (st st' : PState), st.quote ≠ "" →
        feedM data clean st = Except.ok st' → st'.quote = st.quote) ∧
    (∀ (nm : String) (attrs : List (String × Option String)) (sc : Bool)
        (tx : Option String) (st st' : PState), st.inXml = false →
        nm ∉ foreignContentStartTags →
        startTagM nm attrs sc tx st = Except.ok st' → st'.quote = st.quote) ∧
    (∀ (idv : Nat) (name : String) (attrs : List (String × Option String))
        (void : Bool) (q : String),
        (elementNew idv name attrs void (some q)).quote =
          (if q = "" then "\"" else q) ∧
        (elementNew idv name attrs void none).quote = "\"") ∧
    feedOut (runFeed1 "<svg><circle fill='red'/></svg><div id=x></div>") =
      Except.ok "<svg><circle fill='red' /></svg><div id='x'></div>" := by
  refine ⟨fun data clean st st' hq h => feedM_quote_ne hq h,
    fun nm attrs sc tx st st' hx hf h => startTagM_quote_noXml hx hf h,
    fun idv name attrs void q => ⟨?_, rfl⟩, by decide⟩
  simp only [elementNew]
  rcases q with ⟨L⟩
  cases L <;> simp [String.ext_iff]

end Sri